import Mathlib

/-!
Verification development for the DETR-style multi-task criterion in
`models/detr.py` (classes `DETR`, `SetCriterion`, `PostProcess`).

Modelling conventions:
* Dense tensors are modelled as nested lists over `ℚ` (batch × query × feature);
  indexed reads use `List.getD`, indexed writes use `List.set`.
* Python dict keys that may be absent (`outputs['pred_logits']`, `t['labels']`, …)
  are `Option`-valued structure fields; a `KeyError` / failed `assert` is `none`.
* Softmax / cross-entropy values live in `ℝ` (they involve `exp`/`log`); all other
  arithmetic stays in `ℚ` and is cast into the `ℝ`-valued result entries.
* The dimension loss is additionally embedded over dual numbers
  (value, directional derivative) so that the `torch.no_grad()` scope around its
  compensation factor is captured: `detach`/`no_grad` zero the derivative part.
* `torch`'s advanced integer indexing accepts negative indices in `[-size, 0)`
  by wrapping (adding `size`); out-of-range indices raise, modelled as `none`.
-/

/-- A 2-D tensor of rationals. -/
abbrev Mat := List (List ℚ)

/-- A 3-D tensor (batch × query × feature). -/
abbrev T3 := List (List (List ℚ))

/-- Mean of a rational list (`tensor.mean()`), with the `0/0 = 0` convention. -/
def meanQ (l : List ℚ) : ℚ := l.sum / l.length

/-- Summed elementwise absolute difference of two equal-length vectors. -/
def l1sum (a b : List ℚ) : ℚ := (List.zipWith (fun x y => |x - y|) a b).sum

/-- Summed elementwise absolute difference of two equal-shape matrices
(`F.l1_loss(·, ·, reduction='none').sum()`). -/
def l1sum2 (a b : Mat) : ℚ := (List.zipWith l1sum a b).sum

/-- `F.mse_loss` with the default `'mean'` reduction on equal-length vectors. -/
def mseQ (a b : List ℚ) : ℚ :=
  (List.zipWith (fun x y => (x - y) ^ 2) a b).sum / (a.length : ℚ)

/-- `log (Σ exp lᵢ)`, the normalizer of a softmax over the logits `l`. -/
noncomputable def logSumExp (l : List ℚ) : ℝ :=
  Real.log ((l.map (fun x => Real.exp (x : ℝ))).sum)

/-- Negative log-softmax of class `y` for the logit row `row`:
`-log softmax(row)ʸ = logSumExp row - rowʸ`. -/
noncomputable def nllTerm (row : List ℚ) (y : ℕ) : ℝ :=
  logSumExp row - ((row.getD y 0 : ℚ) : ℝ)

/-- `F.cross_entropy(input, target, weight)` with the default `'mean'` reduction:
per-sample weighted NLL terms, divided by the summed weights of the targets. -/
noncomputable def weightedCE (rows : List (List ℚ)) (ys : List ℕ) (w : List ℚ) : ℝ :=
  (((rows.zip ys).map (fun p => ((w.getD p.2 0 : ℚ) : ℝ) * nllTerm p.1 p.2)).sum) /
    (((ys.map (fun y => w.getD y 0)).sum : ℚ) : ℝ)

/-- Soft-target cross-entropy of one logit row against a probability row:
`Σⱼ tⱼ · (logSumExp row − rowⱼ)`. -/
noncomputable def softCErow (row t : List ℚ) : ℝ :=
  ((t.zip row).map (fun p => ((p.1 : ℚ) : ℝ) * (logSumExp row - ((p.2 : ℚ) : ℝ)))).sum

/-- `F.cross_entropy(input, target)` with probability (e.g. one-hot) targets and
the default `'mean'` reduction. -/
noncomputable def softCEmean (rows tgts : Mat) : ℝ :=
  ((rows.zip tgts).map (fun p => softCErow p.1 p.2)).sum / (rows.length : ℝ)

/-- Index of the first maximal element of a list (`tensor.argmax(-1)`). -/
def argmaxIdx {α : Type} [LinearOrder α] : List α → ℕ
  | [] => 0
  | [_] => 0
  | a :: b :: l =>
    if a < (b :: l).getD (argmaxIdx (b :: l)) a then argmaxIdx (b :: l) + 1 else 0

/-- Maximum of a real list (`tensor.max(-1).values`), `0` on the empty list. -/
noncomputable def listMaxD (l : List ℝ) : ℝ := l.maximum.unbot' 0

/-- Softmax over one row of logits (`F.softmax(·, -1)`). -/
noncomputable def softmaxR (l : List ℚ) : List ℝ :=
  l.map (fun (x : ℚ) => Real.exp ((x : ℚ) : ℝ) / (l.map (fun (y : ℚ) => Real.exp ((y : ℚ) : ℝ))).sum)

/-- Truncation toward zero, the semantics of `tensor.int()` on a float tensor. -/
def truncQ (q : ℚ) : ℤ := if 0 ≤ q then ⌊q⌋ else ⌈q⌉


/-- Left-to-right `Option` traversal of a list (the semantics of evaluating
`[f(t) for t in ts]` where each element access can raise): `none` as soon as
any element fails. -/
def optList {α β : Type} (f : α → Option β) : List α → Option (List β)
  | [] => some []
  | a :: l => do
    let b ← f a
    let r ← optList f l
    pure (b :: r)

/-- Per-image target dict (`targets[i]`); each key that a loss may demand is an
`Option` field, `none` meaning the key is absent. -/
structure Target where
  labels : Option (List ℕ)
  boxes : Option Mat
  bev : Option Mat
  dim : Option Mat
  heading_bin : Option (List ℕ)
  heading_res : Option (List ℚ)
  depth : Option (List ℚ)
  masks : Option (List Mat)

/-- The per-layer prediction bundle (the model's output dict minus
`aux_outputs`); `none` models an absent key. -/
structure Outputs where
  pred_logits : Option T3
  pred_boxes : Option T3
  pred_bev : Option T3
  pred_dim : Option T3
  pred_angle : Option T3
  pred_depth_bin : Option T3
  pred_depth_delta : Option T3
  pred_head_bev : Option T3
  pred_feet_bev : Option T3
  pred_masks : Option (List (List Mat))

/-- The full output dict handed to `SetCriterion.forward`: the final-layer bundle
plus the optional `aux_outputs` list of per-decoder-layer bundles. -/
structure FullOutputs where
  main : Outputs
  aux_outputs : Option (List Outputs)

/-- Modelled from the spec: the distributed context
(`is_dist_avail_and_initialized`, `get_world_size`, `torch.distributed.all_reduce`
live in `util/misc.py` / `torch.distributed`, absent from `src/`). `active` is
whether a distributed context is initialized, `worldSize` the number of workers,
and `peerSum` the summed local target counts of all other workers, so that an
all-reduce sum yields `local + peerSum`. `get_world_size` is `1` when no
distributed context is active. -/
structure DistEnv where
  active : Bool
  worldSize : ℕ
  peerSum : ℚ

/-- The matching produced by the external matcher: per image, a pair of
equal-length index lists (prediction indices, target indices). -/
abbrev Indices := List (List ℕ × List ℕ)

/-- The criterion (`SetCriterion.__init__`). The matcher (`models/matcher.py`)
and the mask-loss pipeline (`interpolate`, `sigmoid_focal_loss`, `dice_loss`
from `models/segmentation.py` / `util/misc.py`) are external to `src/` and are
modelled as function-valued fields. -/
structure SetCriterion where
  num_classes : ℕ
  eos_coef : ℚ
  losses : List String
  n_depth_bins : ℕ
  depth_bin_res : ℚ
  matcher : Outputs → List Target → Indices
  mask_pipeline : List Mat → List Mat → ℚ → ℝ × ℝ

/-- `empty_weight`: ones over the `num_classes + 1` classes, with the last
(no-object) entry overwritten by `eos_coef` (lines 141-143). -/
def SetCriterion.empty_weight (c : SetCriterion) : List ℚ :=
  (List.replicate (c.num_classes + 1) (1 : ℚ)).set c.num_classes c.eos_coef

/-- `_get_src_permutation_idx`: flat batch indices and flat prediction indices
of the matched pairs, in batch order. -/
def get_src_permutation_idx (indices : Indices) : List ℕ × List ℕ :=
  ((indices.enum.map (fun p => List.replicate p.2.1.length p.1)).flatten,
   (indices.map Prod.fst).flatten)

/-- `_get_tgt_permutation_idx`: flat batch indices and flat target indices. -/
def get_tgt_permutation_idx (indices : Indices) : List ℕ × List ℕ :=
  ((indices.enum.map (fun p => List.replicate p.2.2.length p.1)).flatten,
   (indices.map Prod.snd).flatten)

/-- Advanced-indexing gather `t[(batch_idx, src_idx)]` over a batched tensor. -/
def gather2 {α : Type} (t : List (List α)) (bs qs : List ℕ) (d : α) : List α :=
  (bs.zip qs).map (fun p => (t.getD p.1 []).getD p.2 d)

/-- `torch.cat([x[J] for x, (_, J) in zip(xs, indices)])`: gather each image's
field rows at that image's matched target indices and concatenate. -/
def cat_gather {α : Type} (xs : List (List α)) (indices : Indices) (d : α) : List α :=
  ((xs.zip indices).map (fun p => p.2.2.map (fun j => p.1.getD j d))).flatten

/-- `target_classes[idx] = target_classes_o`: sequential indexed assignment of
values into a 2-D integer tensor at (batch, query) positions. -/
def scatter2 (g : List (List ℕ)) (upd : List ((ℕ × ℕ) × ℕ)) : List (List ℕ) :=
  upd.foldl (fun g u => g.set u.1.1 ((g.getD u.1.1 []).set u.1.2 u.2)) g

/-- Modelled from the spec: `accuracy` lives in `util/misc.py`, absent from
`src/`; per the spec, `class_error` is `100 −` the top-1 accuracy (in percent)
of the matched queries' logits against their target classes. This is that
top-1 accuracy. -/
def accuracy1 (rows : Mat) (ys : List ℕ) : ℚ :=
  100 * (((rows.zip ys).countP (fun p => decide (argmaxIdx p.1 = p.2)) : ℚ) / (rows.length : ℚ))

/-- `SetCriterion.loss_labels` (lines 147-166). -/
noncomputable def SetCriterion.loss_labels (c : SetCriterion) (outputs : Outputs)
    (targets : List Target) (indices : Indices) (_num_boxes : ℚ) (log : Bool) :
    Option (List (String × ℝ)) := do
  let src_logits ← outputs.pred_logits
  let labs ← optList Target.labels targets
  let idx := get_src_permutation_idx indices
  let target_classes_o := cat_gather labs indices 0
  let tc0 : List (List ℕ) :=
    List.replicate src_logits.length
      (List.replicate (src_logits.getD 0 []).length c.num_classes)
  let target_classes := scatter2 tc0 ((idx.1.zip idx.2).zip target_classes_o)
  let loss_ce := weightedCE src_logits.flatten target_classes.flatten c.empty_weight
  pure (if log then
    [("loss_ce", loss_ce),
     ("class_error", 100 - ((accuracy1 (gather2 src_logits idx.1 idx.2 []) target_classes_o : ℚ) : ℝ))]
  else [("loss_ce", loss_ce)])

/-- `SetCriterion.loss_cardinality` (lines 194-206). -/
noncomputable def SetCriterion.loss_cardinality (_c : SetCriterion) (outputs : Outputs)
    (targets : List Target) (_indices : Indices) (_num_boxes : ℚ) :
    Option (List (String × ℝ)) := do
  let pred_logits ← outputs.pred_logits
  let labs ← optList Target.labels targets
  let tgt_lengths := labs.map List.length
  let lastIdx := ((pred_logits.getD 0 []).getD 0 []).length - 1
  let card_pred := pred_logits.map (fun img => img.countP (fun r => decide (argmaxIdx r ≠ lastIdx)))
  let card_err : ℚ :=
    (List.zipWith (fun (a b : ℕ) => |(a : ℚ) - (b : ℚ)|) card_pred tgt_lengths).sum /
      (pred_logits.length : ℚ)
  pure [("cardinality_error", ((card_err : ℚ) : ℝ))]

/-- Modelled from the spec: `box_cxcywh_to_xyxy` lives in `util/box_ops.py`,
absent from `src/`; per §4.1 it converts (center_x, center_y, w, h) to
(x0, y0, x1, y1). -/
def box_cxcywh_to_xyxy (b : List ℚ) : List ℚ :=
  [b.getD 0 0 - b.getD 2 0 / 2, b.getD 1 0 - b.getD 3 0 / 2,
   b.getD 0 0 + b.getD 2 0 / 2, b.getD 1 0 + b.getD 3 0 / 2]

/-- Modelled from the spec: `generalized_box_iou` lives in `util/box_ops.py`,
absent from `src/`; per §4.1 it is IoU minus (enclosing area − union) over
enclosing area, on corner-form boxes, widths/heights clamped to non-negative.
This is the diagonal entry used by `loss_boxes` (one prediction/target pair). -/
def generalized_box_iou1 (a b : List ℚ) : ℚ :=
  let ax0 := a.getD 0 0; let ay0 := a.getD 1 0; let ax1 := a.getD 2 0; let ay1 := a.getD 3 0
  let bx0 := b.getD 0 0; let by0 := b.getD 1 0; let bx1 := b.getD 2 0; let by1 := b.getD 3 0
  let areaA := max 0 (ax1 - ax0) * max 0 (ay1 - ay0)
  let areaB := max 0 (bx1 - bx0) * max 0 (by1 - by0)
  let inter := max 0 (min ax1 bx1 - max ax0 bx0) * max 0 (min ay1 by1 - max ay0 by0)
  let union := areaA + areaB - inter
  let enc := max 0 (max ax1 bx1 - min ax0 bx0) * max 0 (max ay1 by1 - min ay0 by0)
  inter / union - (enc - union) / enc

/-- `SetCriterion.loss_boxes` (lines 208-227). -/
noncomputable def SetCriterion.loss_boxes (_c : SetCriterion) (outputs : Outputs)
    (targets : List Target) (indices : Indices) (num_boxes : ℚ) :
    Option (List (String × ℝ)) := do
  let pred_boxes ← outputs.pred_boxes
  let tboxes ← optList Target.boxes targets
  let idx := get_src_permutation_idx indices
  let src_boxes := gather2 pred_boxes idx.1 idx.2 []
  let target_boxes := cat_gather tboxes indices ([] : List ℚ)
  let loss_bbox := l1sum2 src_boxes target_boxes
  let loss_giou :=
    (List.zipWith
      (fun s t => 1 - generalized_box_iou1 (box_cxcywh_to_xyxy s) (box_cxcywh_to_xyxy t))
      src_boxes target_boxes).sum
  pure [("loss_bbox", ((loss_bbox / num_boxes : ℚ) : ℝ)),
        ("loss_giou", ((loss_giou / num_boxes : ℚ) : ℝ))]

/-- `SetCriterion.loss_masks` (lines 229-256); the interpolation, focal and dice
computations are external to `src/` and live in the criterion's
`mask_pipeline` field. -/
def SetCriterion.loss_masks (c : SetCriterion) (outputs : Outputs)
    (targets : List Target) (indices : Indices) (num_boxes : ℚ) :
    Option (List (String × ℝ)) := do
  let pred_masks ← outputs.pred_masks
  let tmasks ← optList Target.masks targets
  let src_idx := get_src_permutation_idx indices
  let tgt_idx := get_tgt_permutation_idx indices
  let src_masks := gather2 pred_masks src_idx.1 src_idx.2 []
  let target_masks := gather2 tmasks tgt_idx.1 tgt_idx.2 []
  let p := c.mask_pipeline src_masks target_masks num_boxes
  pure [("loss_mask", p.1), ("loss_dice", p.2)]

/-- `SetCriterion.loss_bev` (lines 258-266). The `.squeeze()` on the gathered
predictions only changes the shape when one pair is matched; broadcasting in
`F.l1_loss` restores it, leaving every summand unchanged, so it is value-level
identity here. -/
noncomputable def SetCriterion.loss_bev (_c : SetCriterion) (outputs : Outputs)
    (targets : List Target) (indices : Indices) (num_boxes : ℚ) :
    Option (List (String × ℝ)) := do
  let pred_bev ← outputs.pred_bev
  let tbev ← optList Target.bev targets
  let idx := get_src_permutation_idx indices
  let src_bev := gather2 pred_bev idx.1 idx.2 []
  let target_bev := cat_gather tbev indices ([] : List ℚ)
  pure [("loss_bev", ((l1sum2 src_bev target_bev / num_boxes : ℚ) : ℝ))]

/-- `SetCriterion.loss_head` (lines 268-276): identical to `loss_bev` except it
reads `pred_head_bev` and names its entry `loss_head_bev`; the target is the
same `bev` field. -/
noncomputable def SetCriterion.loss_head (_c : SetCriterion) (outputs : Outputs)
    (targets : List Target) (indices : Indices) (num_boxes : ℚ) :
    Option (List (String × ℝ)) := do
  let pred_head_bev ← outputs.pred_head_bev
  let tbev ← optList Target.bev targets
  let idx := get_src_permutation_idx indices
  let src_bev := gather2 pred_head_bev idx.1 idx.2 []
  let target_bev := cat_gather tbev indices ([] : List ℚ)
  pure [("loss_head_bev", ((l1sum2 src_bev target_bev / num_boxes : ℚ) : ℝ))]

/-- `SetCriterion.loss_feet` (lines 278-286): identical to `loss_bev` except it
reads `pred_feet_bev` and names its entry `loss_feet_bev`; the target is the
same `bev` field. -/
noncomputable def SetCriterion.loss_feet (_c : SetCriterion) (outputs : Outputs)
    (targets : List Target) (indices : Indices) (num_boxes : ℚ) :
    Option (List (String × ℝ)) := do
  let pred_feet_bev ← outputs.pred_feet_bev
  let tbev ← optList Target.bev targets
  let idx := get_src_permutation_idx indices
  let src_bev := gather2 pred_feet_bev idx.1 idx.2 []
  let target_bev := cat_gather tbev indices ([] : List ℚ)
  pure [("loss_feet_bev", ((l1sum2 src_bev target_bev / num_boxes : ℚ) : ℝ))]

/-- Dual number (value, directional derivative) capturing one forward-mode
derivative of the autograd graph. -/
structure DualQ where
  v : ℚ
  d : ℚ

/-- Dual addition. -/
def dadd (a b : DualQ) : DualQ := ⟨a.v + b.v, a.d + b.d⟩

/-- Dual subtraction. -/
def dsub (a b : DualQ) : DualQ := ⟨a.v - b.v, a.d - b.d⟩

/-- Dual multiplication (product rule). -/
def dmul (a b : DualQ) : DualQ := ⟨a.v * b.v, a.v * b.d + b.v * a.d⟩

/-- Dual division (quotient rule). -/
def ddiv (a b : DualQ) : DualQ := ⟨a.v / b.v, (a.d * b.v - a.v * b.d) / (b.v * b.v)⟩

/-- Dual absolute value (derivative `±1` by sign, the subgradient at `0`). -/
def dabs (a : DualQ) : DualQ := ⟨|a.v|, if a.v < 0 then -a.d else a.d⟩

/-- `tensor.detach()` / a value computed under `torch.no_grad()`: the value
survives, the derivative is severed. -/
def ddetach (a : DualQ) : DualQ := ⟨a.v, 0⟩

/-- A constant scalar (no gradient). -/
def dconst (q : ℚ) : DualQ := ⟨q, 0⟩

/-- Sum of a list of duals. -/
def dsum (l : List DualQ) : DualQ := l.foldr dadd ⟨0, 0⟩

/-- Lift a rational matrix to constant duals. -/
def liftMat (m : Mat) : List (List DualQ) := m.map (fun r => r.map dconst)

/-- The body of `SetCriterion.loss_dims` (lines 296-307) on the gathered matched
dimensions, over dual numbers: `dim_loss = |src − target| / target` elementwise,
`compensation_weight = F.l1_loss(src, target) / dim_loss.mean()` computed inside
`torch.no_grad()` (hence a constant dual), then `(dim_loss * compensation_weight).sum() / num_boxes`. -/
def loss_dims_core (src_dims target_dims : List (List DualQ)) (num_boxes : ℚ) : DualQ :=
  let dimension := target_dims.map (fun r => r.map ddetach)
  let dim_loss := List.zipWith
    (fun r s => List.zipWith (fun x y => ddiv (dabs (dsub x.1 x.2)) y) (r.1.zip r.2) s)
    (src_dims.zip target_dims) dimension
  let numel : ℚ := ((dim_loss.map List.length).sum : ℕ)
  let l1v : ℚ :=
    (List.zipWith (fun r s => (List.zipWith (fun x y => |x.v - y.v|) r s).sum)
      src_dims target_dims).sum / numel
  let relMean : ℚ := ((dim_loss.map (fun r => (r.map DualQ.v).sum)).sum) / numel
  let compensation_weight := dconst (l1v / relMean)
  let dim_loss2 := dim_loss.map (fun r => r.map (fun x => dmul x compensation_weight))
  ddiv (dsum (dim_loss2.map dsum)) (dconst num_boxes)

/-- `SetCriterion.loss_dims` (lines 288-309): gathers the matched dimensions and
evaluates `loss_dims_core` on constant-dual lifts (its value component). -/
noncomputable def SetCriterion.loss_dims (_c : SetCriterion) (outputs : Outputs)
    (targets : List Target) (indices : Indices) (num_boxes : ℚ) :
    Option (List (String × ℝ)) := do
  let pred_dim ← outputs.pred_dim
  let tdim ← optList Target.dim targets
  let idx := get_src_permutation_idx indices
  let src_dims := gather2 pred_dim idx.1 idx.2 []
  let target_dims := cat_gather tdim indices ([] : List ℚ)
  pure [("loss_dim",
    (((loss_dims_core (liftMat src_dims) (liftMat target_dims) num_boxes).v : ℚ) : ℝ))]

/-- `SetCriterion.loss_angles` (lines 311-335): per matched pair, index
cross-entropy on the first 12 channels against the heading bin, plus L1 between
the residual channel selected by the one-hot of that bin (`row[12 + bin]`) and
the target residual; the per-sample sums are then summed and divided by
`num_boxes`. The `scatter_` write requires every bin index to be in `[0, 12)`. -/
noncomputable def SetCriterion.loss_angles (_c : SetCriterion) (outputs : Outputs)
    (targets : List Target) (indices : Indices) (num_boxes : ℚ) :
    Option (List (String × ℝ)) := do
  let pred_angle ← outputs.pred_angle
  let tbin ← optList Target.heading_bin targets
  let tres ← optList Target.heading_res targets
  let idx := get_src_permutation_idx indices
  let heading_input := gather2 pred_angle idx.1 idx.2 []
  let heading_target_cls := cat_gather tbin indices 0
  let heading_target_res := cat_gather tres indices 0
  if heading_target_cls.all (fun k => decide (k < 12)) then
    let angle_loss : List ℝ := List.zipWith
      (fun (row : List ℚ) (p : ℕ × ℚ) =>
        nllTerm (row.take 12) p.1 + (((|row.getD (12 + p.1) 0 - p.2|) : ℚ) : ℝ))
      heading_input (heading_target_cls.zip heading_target_res)
    pure [("loss_angle", angle_loss.sum / ((num_boxes : ℚ) : ℝ))]
  else none

/-- `SetCriterion.loss_depth_multi_bin` (lines 168-192). The gathered bin tensor
is `M × n`; `.squeeze()` leaves it 2-D only when `M ≠ 1` and `n ≠ 1`, and the
subsequent two-index write `target_depth_bin[arange(M), cls]` raises on a non-2-D
tensor, so those calls fail. The write accepts a bin index `k ∈ [-n, n)`
(negative indices wrap by `+n`, torch semantics) and raises otherwise. -/
noncomputable def SetCriterion.loss_depth_multi_bin (c : SetCriterion) (outputs : Outputs)
    (targets : List Target) (indices : Indices) (_num_boxes : ℚ) :
    Option (List (String × ℝ)) := do
  let pred_depth_bin ← outputs.pred_depth_bin
  let pred_depth_delta ← outputs.pred_depth_delta
  let tdep ← optList Target.depth targets
  let idx := get_src_permutation_idx indices
  let src_depth_bin := gather2 pred_depth_bin idx.1 idx.2 []
  let src_depth_delta := (gather2 pred_depth_delta idx.1 idx.2 []).map (fun r => r.getD 0 0)
  let target_depth := cat_gather tdep indices (0 : ℚ)
  let M := src_depth_bin.length
  let n := (src_depth_bin.getD 0 []).length
  if M = 1 ∨ n = 1 then none else
  let target_depth_bin_cls : List ℤ := target_depth.map (fun dq => truncQ (dq / c.depth_bin_res))
  let target_depth_delta := target_depth.map
    (fun dq => dq - (truncQ (dq / c.depth_bin_res) : ℚ) * c.depth_bin_res - c.depth_bin_res / 2)
  if target_depth_bin_cls.length = M ∧
      target_depth_bin_cls.all (fun k => decide (-(n : ℤ) ≤ k ∧ k < (n : ℤ))) then
    let target_depth_bin : Mat := target_depth_bin_cls.map
      (fun k => (List.range n).map (fun j => if (j : ℤ) = Int.emod k (n : ℤ) then (1 : ℚ) else 0))
    pure [("loss_depth",
      ((mseQ src_depth_delta target_depth_delta : ℚ) : ℝ) / 2 +
        softCEmean src_depth_bin target_depth_bin / 2)]
  else none

/-- `SetCriterion.get_loss` (lines 351-371): registry dispatch; an unknown loss
name trips the assert. The `log` flag is forwarded as the `**kwargs` of the
`labels` loss and ignored by every other loss. -/
noncomputable def SetCriterion.get_loss (c : SetCriterion) (loss : String) (outputs : Outputs)
    (targets : List Target) (indices : Indices) (num_boxes : ℚ) (log : Bool) :
    Option (List (String × ℝ)) :=
  if loss = "labels" then c.loss_labels outputs targets indices num_boxes log
  else if loss = "cardinality" then c.loss_cardinality outputs targets indices num_boxes
  else if loss = "boxes" then c.loss_boxes outputs targets indices num_boxes
  else if loss = "masks" then c.loss_masks outputs targets indices num_boxes
  else if loss = "bev" then c.loss_bev outputs targets indices num_boxes
  else if loss = "dim" then c.loss_dims outputs targets indices num_boxes
  else if loss = "angle" then c.loss_angles outputs targets indices num_boxes
  else if loss = "depth" then c.loss_depth_multi_bin outputs targets indices num_boxes
  else if loss = "head" then c.loss_head outputs targets indices num_boxes
  else if loss = "feet" then c.loss_feet outputs targets indices num_boxes
  else none

/-- The result-entry names each registered loss emits when it succeeds. -/
def lossNames (loss : String) (log : Bool) : List String :=
  if loss = "labels" then if log then ["loss_ce", "class_error"] else ["loss_ce"]
  else if loss = "cardinality" then ["cardinality_error"]
  else if loss = "boxes" then ["loss_bbox", "loss_giou"]
  else if loss = "masks" then ["loss_mask", "loss_dice"]
  else if loss = "bev" then ["loss_bev"]
  else if loss = "dim" then ["loss_dim"]
  else if loss = "angle" then ["loss_angle"]
  else if loss = "depth" then ["loss_depth"]
  else if loss = "head" then ["loss_head_bev"]
  else if loss = "feet" then ["loss_feet_bev"]
  else []

/-- The `for loss in self.losses: losses.update(self.get_loss(...))` loop as an
ordered association list. -/
noncomputable def SetCriterion.run_losses (c : SetCriterion) (outputs : Outputs)
    (targets : List Target) (indices : Indices) (num_boxes : ℚ) (log : Bool) :
    List String → Option (List (String × ℝ))
  | [] => some []
  | l :: rest => do
    let x ← c.get_loss l outputs targets indices num_boxes log
    let r ← c.run_losses outputs targets indices num_boxes log rest
    pure (x ++ r)

/-- `SetCriterion.forward` (lines 373-413): match on the final layer, compute the
shared normalization denominator (local target count, all-reduce-summed when a
distributed context is active, divided by the world size, clamped to ≥ 1),
run every requested loss with it, then — when `aux_outputs` is present — re-match
per auxiliary layer and re-run every non-`masks` loss with `log=False`,
suffixing each entry name with `_<layer index>`, all with the same denominator. -/
noncomputable def SetCriterion.forward (c : SetCriterion) (env : DistEnv)
    (outputs : FullOutputs) (targets : List Target) : Option (List (String × ℝ)) := do
  let outputs_without_aux := outputs.main
  let indices := c.matcher outputs_without_aux targets
  let labs ← optList Target.labels targets
  let local_count : ℚ := ((labs.map List.length).sum : ℕ)
  let reduced : ℚ := if env.active then local_count + env.peerSum else local_count
  let num_boxes : ℚ := max 1 (reduced / (if env.active then (env.worldSize : ℚ) else 1))
  let final ← c.run_losses outputs_without_aux targets indices num_boxes true c.losses
  match outputs.aux_outputs with
  | none => pure final
  | some aux_list => do
    let parts ← optList (fun (p : ℕ × Outputs) => do
      let indices2 := c.matcher p.2 targets
      let l_dict ← c.run_losses p.2 targets indices2 num_boxes false
        (c.losses.filter (fun s => s != "masks"))
      pure (l_dict.map (fun e => (e.1 ++ "_" ++ toString p.1, e.2)))) aux_list.enum
    pure (final ++ parts.flatten)

/-- One per-image record returned by `PostProcess.forward`. -/
structure Detection where
  scores : List ℝ
  labels : List ℕ
  boxes : List (List ℚ)

/-- `PostProcess.forward` (lines 416-444): softmax the logits, take the best
non-last (non-"no-object") class per query as (score, label), convert each box
from center form to corner form and scale it by (w, h, w, h) of the image
(`target_sizes` rows are `[height, width]`). -/
noncomputable def PostProcess.forward (outputs : Outputs) (target_sizes : List (List ℚ)) :
    Option (List Detection) := do
  let out_logits ← outputs.pred_logits
  let out_bbox ← outputs.pred_boxes
  if out_logits.length = target_sizes.length ∧ target_sizes.all (fun s => decide (s.length = 2)) then
    let prob := out_logits.map (fun img => img.map softmaxR)
    let scores := prob.map (fun img => img.map (fun r => listMaxD r.dropLast))
    let labelsOut := prob.map (fun img => img.map (fun r => argmaxIdx r.dropLast))
    let boxes := out_bbox.map (fun img => img.map box_cxcywh_to_xyxy)
    let scaled := List.zipWith
      (fun (img : Mat) (s : List ℚ) => img.map (fun b =>
        List.zipWith (fun x y => x * y) b [s.getD 1 0, s.getD 0 0, s.getD 1 0, s.getD 0 0]))
      boxes target_sizes
    pure (List.zipWith (fun (p : List ℝ × List ℕ) b => Detection.mk p.1 p.2 b)
      (scores.zip labelsOut) scaled)
  else none

/-- The loss loops of `SetCriterion.forward` with the normalization denominator
abstracted out: used to state that one shared denominator is passed to every
requested loss, for the final layer and every auxiliary layer alike. -/
noncomputable def SetCriterion.forward_with_nb (c : SetCriterion) (outputs : FullOutputs)
    (targets : List Target) (num_boxes : ℚ) : Option (List (String × ℝ)) := do
  let indices := c.matcher outputs.main targets
  let final ← c.run_losses outputs.main targets indices num_boxes true c.losses
  match outputs.aux_outputs with
  | none => pure final
  | some aux_list => do
    let parts ← optList (fun (p : ℕ × Outputs) => do
      let indices2 := c.matcher p.2 targets
      let l_dict ← c.run_losses p.2 targets indices2 num_boxes false
        (c.losses.filter (fun s => s != "masks"))
      pure (l_dict.map (fun e => (e.1 ++ "_" ++ toString p.1, e.2)))) aux_list.enum
    pure (final ++ parts.flatten)

/-- The normalization denominator as the spec words it: the total target count
`T` over the local batch, all-reduce-summed across workers when a distributed
context is active, divided by the world size, clamped to a minimum of `1`. -/
def specDenominator (localCount : ℕ) (env : DistEnv) : ℚ :=
  let T : ℚ := if env.active then (localCount : ℚ) + env.peerSum else (localCount : ℚ)
  max 1 (T / (if env.active then (env.worldSize : ℚ) else 1))

/-- One elementwise relative-L1 entry of the dimension loss, as the spec words
it: `|pred − target|` divided by the (gradient-severed) target. -/
def relDual (x y : DualQ) : DualQ := ddiv (dabs (dsub x y)) (ddetach y)

/-- All elementwise relative-L1 entries of the dimension loss, flattened. -/
def relList (src tgt : List (List DualQ)) : List DualQ :=
  (List.zipWith (fun r s => List.zipWith relDual r s) src tgt).flatten

/-- All elementwise plain-L1 values `|pred − target|` of the dimension loss,
flattened. -/
def l1List (src tgt : List (List DualQ)) : List ℚ :=
  (List.zipWith (fun r s => List.zipWith (fun x y => |x.v - y.v|) r s) src tgt).flatten

/-- The per-batch compensation factor of the dimension loss, as the spec words
it: mean plain L1 error divided by mean relative L1 error (values only: it is
computed under `torch.no_grad()`). -/
def compQ (src tgt : List (List DualQ)) : ℚ :=
  meanQ (l1List src tgt) / meanQ ((relList src tgt).map DualQ.v)

/-- A concrete matcher for the concrete instances below. -/
def exMatcher : Outputs → List Target → Indices := fun _ _ => [([0], [0])]

/-- A concrete (trivial) external mask pipeline. -/
def exMask : List Mat → List Mat → ℚ → ℝ × ℝ := fun _ _ _ => (0, 0)

/-- A concrete criterion: 2 object classes, `eos_coef = 1/10`, two requested
losses, 4 depth bins of resolution 2. -/
def exC : SetCriterion := ⟨2, 1/10, ["labels", "bev"], 4, 2, exMatcher, exMask⟩

/-- A concrete one-object target dict with every key present. -/
def exTgt : Target :=
  ⟨some [1], some [[1/2, 1/2, 1, 1]], some [[1/2, 1/2]], some [[1, 1]],
   some [0], some [0], some [3], some [[[0]]]⟩

/-- A concrete two-object target dict with every key present. -/
def exTgt2 : Target :=
  ⟨some [1, 0], some [[1/2, 1/2, 1, 1], [1/4, 1/4, 1/2, 1/2]],
   some [[1/2, 1/2], [1/4, 1/4]], some [[1, 1], [2, 2]],
   some [0, 1], some [0, 0], some [3, 5], some [[[0]], [[0]]]⟩

/-- A concrete prediction bundle (1 image, 2 queries, 3 classes, 4 depth bins)
with every key present. -/
def exOut : Outputs :=
  ⟨some [[[1, 0, 0], [0, 1, 0]]],
   some [[[1/2, 1/2, 1, 1], [1/4, 1/4, 1/2, 1/2]]],
   some [[[1/2, 1/2], [1/4, 1/4]]],
   some [[[1, 1], [2, 2]]],
   some [[List.replicate 24 0, List.replicate 24 0]],
   some [[[1, 0, 0, 0], [0, 1, 0, 0]]],
   some [[[0], [0]]],
   some [[[1/2, 1/2], [1/4, 1/4]]],
   some [[[1/2, 1/2], [1/4, 1/4]]],
   some [[[[0]], [[0]]]]⟩

/-- A full output dict with one auxiliary layer bundle. -/
def exFull : FullOutputs := ⟨exOut, some [exOut]⟩

/-- A concrete active distributed context: 2 workers, the other worker
reporting 3 targets. -/
def exEnv : DistEnv := ⟨true, 2, 3⟩

/-- A one-pair matching for one image. -/
def exInd : Indices := [([0], [0])]

/-- A two-pair matching for one image. -/
def exInd2 : Indices := [([0, 1], [0, 1])]

/-- The registry of known loss names (`get_loss`'s `loss_map`). -/
def lossRegistry : List String :=
  ["labels", "cardinality", "boxes", "masks", "bev", "dim", "angle", "depth", "head", "feet"]

/-- The output-dict keys a given loss reads (absence makes it fail). -/
def outputs_has_required (loss : String) (o : Outputs) : Prop :=
  if loss = "labels" then o.pred_logits.isSome = true
  else if loss = "cardinality" then o.pred_logits.isSome = true
  else if loss = "boxes" then o.pred_boxes.isSome = true
  else if loss = "masks" then o.pred_masks.isSome = true
  else if loss = "bev" then o.pred_bev.isSome = true
  else if loss = "dim" then o.pred_dim.isSome = true
  else if loss = "angle" then o.pred_angle.isSome = true
  else if loss = "depth" then o.pred_depth_bin.isSome = true ∧ o.pred_depth_delta.isSome = true
  else if loss = "head" then o.pred_head_bev.isSome = true
  else if loss = "feet" then o.pred_feet_bev.isSome = true
  else False

/-- The target-dict keys a given loss reads from every target (absence in any
target dict makes it fail). -/
def target_has_required (loss : String) (t : Target) : Prop :=
  if loss = "labels" then t.labels.isSome = true
  else if loss = "cardinality" then t.labels.isSome = true
  else if loss = "boxes" then t.boxes.isSome = true
  else if loss = "masks" then t.masks.isSome = true
  else if loss = "bev" then t.bev.isSome = true
  else if loss = "dim" then t.dim.isSome = true
  else if loss = "angle" then t.heading_bin.isSome = true ∧ t.heading_res.isSome = true
  else if loss = "depth" then t.depth.isSome = true
  else if loss = "head" then t.bev.isSome = true
  else if loss = "feet" then t.bev.isSome = true
  else False

/-- The concrete result of a successful `forward` call on the fixtures (its
payload, extracted with a default). -/
noncomputable def exRes : List (String × ℝ) := (exC.forward exEnv exFull [exTgt]).getD []

/-- The per-query target-class tensor as the spec words it: each matched query
carries its assigned target's class label; every unmatched query carries the
no-object class index `num_classes`. -/
def spec_target_classes (num_classes : ℕ) (labs : List (List ℕ)) (ind : Indices)
    (B Q : ℕ) : List (List ℕ) :=
  (List.range B).map (fun b => (List.range Q).map (fun q =>
    match ((ind.getD b ([], [])).1.zip (ind.getD b ([], [])).2).find?
        (fun p => decide (p.1 = q)) with
    | some p => (labs.getD b []).getD p.2 0
    | none => num_classes))

/-- The per-class weight vector as the spec words it: all ones except
`eos_coef` at the no-object index. -/
def spec_empty_weight (num_classes : ℕ) (eos : ℚ) : List ℚ :=
  (List.range (num_classes + 1)).map (fun j => if j = num_classes then eos else 1)

/-- The flat update list `zip(idx, target_classes_o)` of `loss_labels`,
rewritten image by image: for the image at batch index `n + i`, one update
`((n + i, q), labels_i[j])` per matched pair `(q, j)`. -/
def updOf (labs : List (List ℕ)) : Indices → ℕ → List ((ℕ × ℕ) × ℕ)
  | [], _ => []
  | p :: ind', n =>
    (p.1.zip p.2).map (fun z => ((n, z.1), (labs.getD 0 []).getD z.2 0)) ++
      updOf (labs.drop 1) ind' (n + 1)

/-- The depth-loss target residual as the claim words it, with a floor-based
bin id: `d − ⌊d/res⌋·res − res/2`. -/
def spec_depth_target_delta (res d : ℚ) : ℚ := d - (⌊d / res⌋ : ℚ) * res - res / 2

/-- The one-hot row of the floor-based target depth bin over `n` bins (all-zero
when the floor bin is outside `[0, n)`, where a one-hot is not definable). -/
def spec_depth_onehot (n : ℕ) (res d : ℚ) : List ℚ :=
  (List.range n).map (fun j => if (j : ℤ) = ⌊d / res⌋ then 1 else 0)

/-- A criterion with a single requested loss `depth`, bin resolution 1. -/
def exCd : SetCriterion := ⟨2, 1/10, ["depth"], 2, 1, exMatcher, exMask⟩

/-- A depth-only prediction bundle with one query and two depth bins. -/
def oD1 : Outputs :=
  ⟨none, none, none, none, none, some [[[1, 0]]], some [[[0]]], none, none, none⟩

/-- A one-object target dict carrying only a depth. -/
def tD1 : Target := ⟨none, none, none, none, none, none, some [1/2], none⟩

/-- A depth-only prediction bundle with two queries and two depth bins. -/
def oD2 : Outputs :=
  ⟨none, none, none, none, none, some [[[0, 0], [0, 0]]], some [[[0], [0]]], none, none, none⟩

/-- A two-object target dict with negative depths in `(-res, 0)`. -/
def tD2 : Target := ⟨none, none, none, none, none, none, some [-1/2, -1/2], none⟩

/-- A two-object target dict with negative depths in `(-2·res, -res)`. -/
def tD3 : Target := ⟨none, none, none, none, none, none, some [-3/2, -3/2], none⟩

/-! ### Helper lemmas -/

theorem optList_forall₂ {α β : Type} (f : α → Option β) :
    ∀ (l : List α) (r : List β),
      optList f l = some r ↔ List.Forall₂ (fun a b => f a = some b) l r := by
  intro l
  induction l with
  | nil => intro r; simp [optList, List.forall₂_nil_left_iff, eq_comm]
  | cons a t ih =>
    intro r
    constructor
    · intro h
      cases hf : f a with
      | none => simp only [optList, hf, Option.bind_eq_bind, Option.none_bind] at h; exact absurd h (by simp)
      | some b =>
        cases hr : optList f t with
        | none => simp only [optList, hf, hr, Option.bind_eq_bind, Option.some_bind, Option.none_bind] at h; exact absurd h (by simp)
        | some rt =>
          simp only [optList, hf, hr, Option.bind_eq_bind, Option.some_bind, Option.pure_def] at h
          simp only [Option.some_bind, Option.some.injEq] at h
          subst h
          exact List.Forall₂.cons hf ((ih rt).mp hr)
    · intro h
      cases h with
      | cons hab htl =>
        simp only [optList, hab, (ih _).mpr htl, Option.bind_eq_bind, Option.some_bind, Option.pure_def]

theorem optList_length {α β : Type} {f : α → Option β} {l : List α} {r : List β}
    (h : optList f l = some r) : r.length = l.length :=
  ((optList_forall₂ f l r).mp h).length_eq.symm

theorem optList_none_of_mem {α β : Type} {f : α → Option β} {l : List α} {a : α}
    (ha : a ∈ l) (hf : f a = none) : optList f l = none := by
  induction l with
  | nil => cases ha
  | cons x t ih =>
    rcases List.mem_cons.mp ha with rfl | hat
    · simp [optList, hf]
    · cases hfx : f x with
      | none => simp [optList, hfx]
      | some b => simp [optList, hfx, ih hat]

theorem optList_isSome_of_mem {α β : Type} {f : α → Option β} {l : List α}
    {r : List β} {a : α} (h : optList f l = some r) (ha : a ∈ l) :
    (f a).isSome = true := by
  cases hfa : f a with
  | none => rw [optList_none_of_mem ha hfa] at h; cases h
  | some b => rfl

/-- C1: every call to `SetCriterion.forward` computes one normalization
denominator — `max(1, T / world_size)` with `T` the local total target count,
all-reduce-summed across workers when a distributed context is active — and
passes that same value to every requested loss, for the final layer and every
auxiliary layer alike; with two workers reporting `N1` and `N2` targets it
equals `max(1, (N1 + N2) / 2)`. -/
theorem C1_shared_normalization_denominator (c : SetCriterion) (env : DistEnv)
    (outputs : FullOutputs) (targets : List Target) (labs : List (List ℕ))
    (h : optList Target.labels targets = some labs) :
    c.forward env outputs targets =
      c.forward_with_nb outputs targets (specDenominator (labs.map List.length).sum env) ∧
    (env.active = true → env.worldSize = 2 →
      specDenominator (labs.map List.length).sum env =
        max 1 ((((labs.map List.length).sum : ℚ) + env.peerSum) / 2)) := by
  constructor
  · simp only [SetCriterion.forward, SetCriterion.forward_with_nb, h,
      Option.bind_eq_bind, Option.some_bind, specDenominator]
  · intro ha hw
    simp [specDenominator, ha, hw]

theorem C1_witness :
    optList Target.labels [exTgt] = some [[1]] ∧
    (exC.forward exEnv exFull [exTgt] =
      exC.forward_with_nb exFull [exTgt]
        (specDenominator (([[1]] : List (List ℕ)).map List.length).sum exEnv) ∧
    (exEnv.active = true → exEnv.worldSize = 2 →
      specDenominator (([[1]] : List (List ℕ)).map List.length).sum exEnv =
        max 1 ((((([[1]] : List (List ℕ)).map List.length).sum : ℚ) + exEnv.peerSum) / 2))) :=
  ⟨rfl, C1_shared_normalization_denominator exC exEnv exFull [exTgt] [[1]] rfl⟩

/-- C9: `loss_bev`, `loss_head` and `loss_feet` each compute the elementwise L1
distance between their own gathered predicted point (`pred_bev`,
`pred_head_bev`, `pred_feet_bev`) and the same target field — the targets'
`bev` points — summed and divided by the denominator; hence whenever the three
gathered predicted-point tensors coincide, the three returned loss values
coincide. -/
theorem C9_bev_head_feet_structure (c : SetCriterion) (o : Outputs)
    (ts : List Target) (ind : Indices) (nb : ℚ) (Pb Ph Pf : T3) (tbev : List Mat)
    (hb : o.pred_bev = some Pb) (hh : o.pred_head_bev = some Ph)
    (hf : o.pred_feet_bev = some Pf) (ht : optList Target.bev ts = some tbev)
    (hbh : gather2 Ph (get_src_permutation_idx ind).1 (get_src_permutation_idx ind).2 [] =
      gather2 Pb (get_src_permutation_idx ind).1 (get_src_permutation_idx ind).2 [])
    (hbf : gather2 Pf (get_src_permutation_idx ind).1 (get_src_permutation_idx ind).2 [] =
      gather2 Pb (get_src_permutation_idx ind).1 (get_src_permutation_idx ind).2 []) :
    c.loss_bev o ts ind nb = some [("loss_bev",
      ((l1sum2 (gather2 Pb (get_src_permutation_idx ind).1 (get_src_permutation_idx ind).2 [])
        (cat_gather tbev ind []) / nb : ℚ) : ℝ))] ∧
    c.loss_head o ts ind nb = some [("loss_head_bev",
      ((l1sum2 (gather2 Pb (get_src_permutation_idx ind).1 (get_src_permutation_idx ind).2 [])
        (cat_gather tbev ind []) / nb : ℚ) : ℝ))] ∧
    c.loss_feet o ts ind nb = some [("loss_feet_bev",
      ((l1sum2 (gather2 Pb (get_src_permutation_idx ind).1 (get_src_permutation_idx ind).2 [])
        (cat_gather tbev ind []) / nb : ℚ) : ℝ))] := by
  refine ⟨?_, ?_, ?_⟩
  · simp [SetCriterion.loss_bev, hb, ht, Option.bind_eq_bind]
  · simp [SetCriterion.loss_head, hh, ht, Option.bind_eq_bind, hbh]
  · simp [SetCriterion.loss_feet, hf, ht, Option.bind_eq_bind, hbf]

theorem C9_witness :
    exOut.pred_bev = some [[[1/2, 1/2], [1/4, 1/4]]] ∧
    exOut.pred_head_bev = some [[[1/2, 1/2], [1/4, 1/4]]] ∧
    exOut.pred_feet_bev = some [[[1/2, 1/2], [1/4, 1/4]]] ∧
    optList Target.bev [exTgt] = some [[[1/2, 1/2]]] ∧
    (exC.loss_bev exOut [exTgt] exInd 1 = some [("loss_bev",
      ((l1sum2 (gather2 [[[1/2, 1/2], [1/4, 1/4]]] (get_src_permutation_idx exInd).1
          (get_src_permutation_idx exInd).2 [])
        (cat_gather [[[1/2, 1/2]]] exInd []) / 1 : ℚ) : ℝ))] ∧
    exC.loss_head exOut [exTgt] exInd 1 = some [("loss_head_bev",
      ((l1sum2 (gather2 [[[1/2, 1/2], [1/4, 1/4]]] (get_src_permutation_idx exInd).1
          (get_src_permutation_idx exInd).2 [])
        (cat_gather [[[1/2, 1/2]]] exInd []) / 1 : ℚ) : ℝ))] ∧
    exC.loss_feet exOut [exTgt] exInd 1 = some [("loss_feet_bev",
      ((l1sum2 (gather2 [[[1/2, 1/2], [1/4, 1/4]]] (get_src_permutation_idx exInd).1
          (get_src_permutation_idx exInd).2 [])
        (cat_gather [[[1/2, 1/2]]] exInd []) / 1 : ℚ) : ℝ))]) :=
  ⟨rfl, rfl, rfl, rfl,
    C9_bev_head_feet_structure exC exOut [exTgt] exInd 1 _ _ _ _ rfl rfl rfl rfl rfl rfl⟩

/-- C6: `loss_cardinality` returns `cardinality_error` equal to the mean over
images of the absolute difference between the number of queries whose arg-max
class is not the last ("no-object") class and that image's true object count;
it is zero whenever every image's predicted non-no-object count equals its true
object count. -/
theorem C6_cardinality_error (c : SetCriterion) (o : Outputs) (ts : List Target)
    (ind : Indices) (nb : ℚ) (L : T3) (labs : List (List ℕ))
    (hL : o.pred_logits = some L) (hl : optList Target.labels ts = some labs)
    (hlen : L.length = ts.length) :
    c.loss_cardinality o ts ind nb = some [("cardinality_error",
      ((meanQ (List.zipWith (fun (a b : ℕ) => |(a : ℚ) - (b : ℚ)|)
        (L.map (fun img => img.countP
          (fun r => decide (argmaxIdx r ≠ ((L.getD 0 []).getD 0 []).length - 1))))
        (labs.map List.length)) : ℚ) : ℝ))] ∧
    ((L.map (fun img => img.countP
        (fun r => decide (argmaxIdx r ≠ ((L.getD 0 []).getD 0 []).length - 1)))) =
          labs.map List.length →
      c.loss_cardinality o ts ind nb = some [("cardinality_error", (0 : ℝ))]) := by
  have hlab : labs.length = ts.length := optList_length hl
  constructor
  · simp only [SetCriterion.loss_cardinality, hL, hl, Option.bind_eq_bind,
      Option.some_bind, Option.pure_def, Option.some.injEq, meanQ]
    rw [List.length_zipWith, List.length_map, List.length_map, hlab, ← hlen, min_self]
  · intro hcnt
    simp only [SetCriterion.loss_cardinality, hL, hl, Option.bind_eq_bind,
      Option.some_bind, Option.pure_def, Option.some.injEq]
    rw [hcnt, List.zipWith_same]
    have hz : (List.map (fun (a : ℕ) => |(a : ℚ) - (a : ℚ)|)
        (List.map List.length labs)).sum = 0 := by
      apply List.sum_eq_zero
      intro x hx
      rcases List.mem_map.mp hx with ⟨a, _, rfl⟩
      simp
    rw [hz]
    norm_num

theorem C6_witness :
    exOut.pred_logits = some [[[1, 0, 0], [0, 1, 0]]] ∧
    optList Target.labels [exTgt] = some [[1]] ∧
    ([[[1, 0, 0], [0, 1, 0]]] : T3).length = ([exTgt] : List Target).length ∧
    (exC.loss_cardinality exOut [exTgt] exInd 1 = some [("cardinality_error",
      ((meanQ (List.zipWith (fun (a b : ℕ) => |(a : ℚ) - (b : ℚ)|)
        (([[[1, 0, 0], [0, 1, 0]]] : T3).map (fun img => img.countP
          (fun r => decide (argmaxIdx r ≠
            ((([[[1, 0, 0], [0, 1, 0]]] : T3).getD 0 []).getD 0 []).length - 1))))
        (([[1]] : List (List ℕ)).map List.length)) : ℚ) : ℝ))] ∧
    ((([[[1, 0, 0], [0, 1, 0]]] : T3).map (fun img => img.countP
        (fun r => decide (argmaxIdx r ≠
          ((([[[1, 0, 0], [0, 1, 0]]] : T3).getD 0 []).getD 0 []).length - 1)))) =
            ([[1]] : List (List ℕ)).map List.length →
      exC.loss_cardinality exOut [exTgt] exInd 1 =
        some [("cardinality_error", (0 : ℝ))])) :=
  ⟨rfl, rfl, rfl,
    C6_cardinality_error exC exOut [exTgt] exInd 1 [[[1, 0, 0], [0, 1, 0]]] [[1]] rfl rfl rfl⟩

theorem dsum_v (l : List DualQ) : (dsum l).v = (l.map DualQ.v).sum := by
  induction l with
  | nil => simp [dsum]
  | cons a t ih => simp [dsum, dadd] at *; simp [ih]

theorem dsum_d (l : List DualQ) : (dsum l).d = (l.map DualQ.d).sum := by
  induction l with
  | nil => simp [dsum]
  | cons a t ih => simp [dsum, dadd] at *; simp [ih]

theorem dmul_dconst (x : DualQ) (q : ℚ) : dmul x (dconst q) = ⟨x.v * q, q * x.d⟩ := by
  simp [dmul, dconst]

theorem ddiv_dconst (x : DualQ) (q : ℚ) : ddiv x (dconst q) = ⟨x.v / q, x.d / q⟩ := by
  rcases eq_or_ne q 0 with rfl | hq
  · simp [ddiv, dconst]
  · simp only [ddiv, dconst, mul_zero, sub_zero, DualQ.mk.injEq]
    refine ⟨trivial, ?_⟩
    rw [div_eq_div_iff (mul_ne_zero hq hq) hq]
    ring

theorem sum_map_mul_rightQ (l : List ℚ) (q : ℚ) :
    (l.map (fun x => x * q)).sum = l.sum * q := by
  induction l with
  | nil => simp
  | cons a t ih => simp [ih, add_mul]

theorem dims_row_rel (a b : List DualQ) :
    List.zipWith (fun x y => ddiv (dabs (dsub x.1 x.2)) y) (a.zip b) (b.map ddetach) =
      List.zipWith relDual a b := by
  induction a generalizing b with
  | nil => simp
  | cons x xs ih =>
    cases b with
    | nil => simp
    | cons y ys => simp [relDual, ih]

theorem dims_mat_rel (src tgt : List (List DualQ)) :
    List.zipWith
      (fun r s => List.zipWith (fun x y => ddiv (dabs (dsub x.1 x.2)) y) (r.1.zip r.2) s)
      (src.zip tgt) (tgt.map (fun r => r.map ddetach)) =
      List.zipWith (fun r s => List.zipWith relDual r s) src tgt := by
  induction src generalizing tgt with
  | nil => simp
  | cons r rs ih =>
    cases tgt with
    | nil => simp
    | cons s ss => simp [dims_row_rel, ih]

theorem dsum_row_mul_v (r : List DualQ) (cw : ℚ) :
    (dsum (r.map (fun x => dmul x (dconst cw)))).v = (r.map DualQ.v).sum * cw := by
  rw [dsum_v, List.map_map, ← sum_map_mul_rightQ, List.map_map]
  apply congrArg List.sum
  apply List.map_congr_left
  intro x _
  simp [dmul, dconst]

theorem dsum_row_mul_d (r : List DualQ) (cw : ℚ) :
    (dsum (r.map (fun x => dmul x (dconst cw)))).d = (r.map DualQ.d).sum * cw := by
  rw [dsum_d, List.map_map, ← sum_map_mul_rightQ, List.map_map]
  apply congrArg List.sum
  apply List.map_congr_left
  intro x _
  simp [dmul, dconst, mul_comm]

theorem dsum_rows_v (M : List (List DualQ)) (cw : ℚ) :
    (dsum ((M.map (fun r => r.map (fun x => dmul x (dconst cw)))).map dsum)).v =
      (M.flatten.map DualQ.v).sum * cw := by
  induction M with
  | nil => simp [dsum]
  | cons r t ih =>
    show (dadd (dsum (r.map (fun x => dmul x (dconst cw))))
      (dsum ((t.map (fun r => r.map (fun x => dmul x (dconst cw)))).map dsum))).v = _
    simp only [dadd]
    rw [dsum_row_mul_v, ih, List.flatten_cons, List.map_append, List.sum_append, add_mul]

theorem dsum_rows_d (M : List (List DualQ)) (cw : ℚ) :
    (dsum ((M.map (fun r => r.map (fun x => dmul x (dconst cw)))).map dsum)).d =
      (M.flatten.map DualQ.d).sum * cw := by
  induction M with
  | nil => simp [dsum]
  | cons r t ih =>
    show (dadd (dsum (r.map (fun x => dmul x (dconst cw))))
      (dsum ((t.map (fun r => r.map (fun x => dmul x (dconst cw)))).map dsum))).d = _
    simp only [dadd]
    rw [dsum_row_mul_d, ih, List.flatten_cons, List.map_append, List.sum_append, add_mul]

theorem zip_rows_lengths (f : DualQ → DualQ → ℚ) :
    ∀ (src tgt : List (List DualQ)),
      (List.zipWith (fun r s => List.zipWith f r s) src tgt).map List.length =
        (List.zipWith (fun r s => List.zipWith relDual r s) src tgt).map List.length := by
  intro src
  induction src with
  | nil => intro tgt; simp
  | cons r rs ih =>
    intro tgt
    cases tgt with
    | nil => simp
    | cons s ss => simp [List.length_zipWith, ih]

theorem loss_dims_core_eq (src tgt : List (List DualQ)) (nb : ℚ) :
    loss_dims_core src tgt nb =
      ⟨compQ src tgt * ((relList src tgt).map DualQ.v).sum / nb,
       compQ src tgt * ((relList src tgt).map DualQ.d).sum / nb⟩ := by
  have hflat : relList src tgt =
      (List.zipWith (fun r s => List.zipWith relDual r s) src tgt).flatten := rfl
  have hsumflat :
      (List.zipWith (fun r s => (List.zipWith (fun x y => |x.v - y.v|) r s).sum) src tgt).sum =
        (l1List src tgt).sum := by
    rw [l1List, List.sum_flatten, List.map_zipWith]
  have hlenl1 : ((l1List src tgt).length : ℚ) =
      (((List.zipWith (fun r s => List.zipWith relDual r s) src tgt).map List.length).sum : ℕ) := by
    rw [l1List, List.length_flatten, zip_rows_lengths (fun x y => |x.v - y.v|)]
  have hrelsum :
      ((List.zipWith (fun r s => List.zipWith relDual r s) src tgt).map
        (fun r => (r.map DualQ.v).sum)).sum = ((relList src tgt).map DualQ.v).sum := by
    rw [hflat, List.map_flatten, List.sum_flatten, List.map_map]
    rfl
  have hlenrel : (((relList src tgt).map DualQ.v).length : ℚ) =
      (((List.zipWith (fun r s => List.zipWith relDual r s) src tgt).map List.length).sum : ℕ) := by
    rw [List.length_map, hflat, List.length_flatten]
  simp only [loss_dims_core, dims_mat_rel]
  rw [ddiv_dconst]
  have hcw :
      (List.zipWith (fun r s => (List.zipWith (fun x y => |x.v - y.v|) r s).sum) src tgt).sum /
          ((((List.zipWith (fun r s => List.zipWith relDual r s) src tgt).map List.length).sum : ℕ) : ℚ) /
        (((List.zipWith (fun r s => List.zipWith relDual r s) src tgt).map
          (fun r => (r.map DualQ.v).sum)).sum /
          ((((List.zipWith (fun r s => List.zipWith relDual r s) src tgt).map List.length).sum : ℕ) : ℚ)) =
        compQ src tgt := by
    rw [hsumflat, hrelsum, compQ, meanQ, meanQ, hlenl1, hlenrel]
  rw [hcw, dsum_rows_v, dsum_rows_d, ← hflat]
  have h1 : ((relList src tgt).map DualQ.v).sum * compQ src tgt =
      compQ src tgt * ((relList src tgt).map DualQ.v).sum := mul_comm _ _
  have h2 : ((relList src tgt).map DualQ.d).sum * compQ src tgt =
      compQ src tgt * ((relList src tgt).map DualQ.d).sum := mul_comm _ _
  rw [h1, h2]

/-- C5: `loss_dims` returns `loss_dim` equal to the summed elementwise relative
L1 error `|pred − target| / target` over the matched pairs, multiplied by one
per-batch compensation factor — the mean plain L1 error divided by the mean
relative L1 error — and divided by the denominator; the factor is computed in a
no-gradient scope, so the derivative of the result is the factor (a constant)
times the derivative of the summed relative error, with no term from
differentiating the factor itself. -/
theorem C5_loss_dims_compensated (c : SetCriterion) (o : Outputs) (ts : List Target)
    (ind : Indices) (nb : ℚ) (P : T3) (tdim : List Mat)
    (hP : o.pred_dim = some P) (ht : optList Target.dim ts = some tdim) :
    (∀ (srcD tgtD : List (List DualQ)) (nbq : ℚ),
      loss_dims_core srcD tgtD nbq =
        ⟨compQ srcD tgtD * ((relList srcD tgtD).map DualQ.v).sum / nbq,
         compQ srcD tgtD * ((relList srcD tgtD).map DualQ.d).sum / nbq⟩) ∧
    c.loss_dims o ts ind nb = some [("loss_dim",
      ((compQ
          (liftMat (gather2 P (get_src_permutation_idx ind).1 (get_src_permutation_idx ind).2 []))
          (liftMat (cat_gather tdim ind [])) *
        ((relList
          (liftMat (gather2 P (get_src_permutation_idx ind).1 (get_src_permutation_idx ind).2 []))
          (liftMat (cat_gather tdim ind []))).map DualQ.v).sum / nb : ℚ) : ℝ))] := by
  refine ⟨fun srcD tgtD nbq => loss_dims_core_eq srcD tgtD nbq, ?_⟩
  simp only [SetCriterion.loss_dims, hP, ht, Option.bind_eq_bind, Option.some_bind,
    Option.pure_def, Option.some.injEq, loss_dims_core_eq]

theorem C5_witness :
    exOut.pred_dim = some [[[1, 1], [2, 2]]] ∧
    optList Target.dim [exTgt] = some [[[1, 1]]] ∧
    ((∀ (srcD tgtD : List (List DualQ)) (nbq : ℚ),
      loss_dims_core srcD tgtD nbq =
        ⟨compQ srcD tgtD * ((relList srcD tgtD).map DualQ.v).sum / nbq,
         compQ srcD tgtD * ((relList srcD tgtD).map DualQ.d).sum / nbq⟩) ∧
    exC.loss_dims exOut [exTgt] exInd 1 = some [("loss_dim",
      ((compQ
          (liftMat (gather2 [[[1, 1], [2, 2]]]
            (get_src_permutation_idx exInd).1 (get_src_permutation_idx exInd).2 []))
          (liftMat (cat_gather [[[1, 1]]] exInd [])) *
        ((relList
          (liftMat (gather2 [[[1, 1], [2, 2]]]
            (get_src_permutation_idx exInd).1 (get_src_permutation_idx exInd).2 []))
          (liftMat (cat_gather [[[1, 1]]] exInd []))).map DualQ.v).sum / 1 : ℚ) : ℝ))]) :=
  ⟨rfl, rfl, C5_loss_dims_compensated exC exOut [exTgt] exInd 1 [[[1, 1], [2, 2]]] [[[1, 1]]] rfl rfl⟩

theorem loss_labels_keys {c : SetCriterion} {o : Outputs} {ts : List Target}
    {ind : Indices} {nb : ℚ} {log : Bool}
    (h : (c.loss_labels o ts ind nb log).isSome = true) :
    o.pred_logits.isSome = true ∧ ∀ t ∈ ts, (Target.labels t).isSome = true := by
  cases hP : o.pred_logits with
  | none => simp [SetCriterion.loss_labels, hP] at h
  | some L =>
    cases hl : optList Target.labels ts with
    | none => simp [SetCriterion.loss_labels, hP, hl] at h
    | some labs => exact ⟨by simp [hP], fun t htm => optList_isSome_of_mem hl htm⟩

theorem loss_cardinality_keys {c : SetCriterion} {o : Outputs} {ts : List Target}
    {ind : Indices} {nb : ℚ}
    (h : (c.loss_cardinality o ts ind nb).isSome = true) :
    o.pred_logits.isSome = true ∧ ∀ t ∈ ts, (Target.labels t).isSome = true := by
  cases hP : o.pred_logits with
  | none => simp [SetCriterion.loss_cardinality, hP] at h
  | some L =>
    cases hl : optList Target.labels ts with
    | none => simp [SetCriterion.loss_cardinality, hP, hl] at h
    | some labs => exact ⟨by simp [hP], fun t htm => optList_isSome_of_mem hl htm⟩

theorem loss_boxes_keys {c : SetCriterion} {o : Outputs} {ts : List Target}
    {ind : Indices} {nb : ℚ}
    (h : (c.loss_boxes o ts ind nb).isSome = true) :
    o.pred_boxes.isSome = true ∧ ∀ t ∈ ts, (Target.boxes t).isSome = true := by
  cases hP : o.pred_boxes with
  | none => simp [SetCriterion.loss_boxes, hP] at h
  | some L =>
    cases hl : optList Target.boxes ts with
    | none => simp [SetCriterion.loss_boxes, hP, hl] at h
    | some labs => exact ⟨by simp [hP], fun t htm => optList_isSome_of_mem hl htm⟩

theorem loss_masks_keys {c : SetCriterion} {o : Outputs} {ts : List Target}
    {ind : Indices} {nb : ℚ}
    (h : (c.loss_masks o ts ind nb).isSome = true) :
    o.pred_masks.isSome = true ∧ ∀ t ∈ ts, (Target.masks t).isSome = true := by
  cases hP : o.pred_masks with
  | none => simp [SetCriterion.loss_masks, hP] at h
  | some L =>
    cases hl : optList Target.masks ts with
    | none => simp [SetCriterion.loss_masks, hP, hl] at h
    | some labs => exact ⟨by simp [hP], fun t htm => optList_isSome_of_mem hl htm⟩

theorem loss_bev_keys {c : SetCriterion} {o : Outputs} {ts : List Target}
    {ind : Indices} {nb : ℚ}
    (h : (c.loss_bev o ts ind nb).isSome = true) :
    o.pred_bev.isSome = true ∧ ∀ t ∈ ts, (Target.bev t).isSome = true := by
  cases hP : o.pred_bev with
  | none => simp [SetCriterion.loss_bev, hP] at h
  | some L =>
    cases hl : optList Target.bev ts with
    | none => simp [SetCriterion.loss_bev, hP, hl] at h
    | some labs => exact ⟨by simp [hP], fun t htm => optList_isSome_of_mem hl htm⟩

theorem loss_head_keys {c : SetCriterion} {o : Outputs} {ts : List Target}
    {ind : Indices} {nb : ℚ}
    (h : (c.loss_head o ts ind nb).isSome = true) :
    o.pred_head_bev.isSome = true ∧ ∀ t ∈ ts, (Target.bev t).isSome = true := by
  cases hP : o.pred_head_bev with
  | none => simp [SetCriterion.loss_head, hP] at h
  | some L =>
    cases hl : optList Target.bev ts with
    | none => simp [SetCriterion.loss_head, hP, hl] at h
    | some labs => exact ⟨by simp [hP], fun t htm => optList_isSome_of_mem hl htm⟩

theorem loss_feet_keys {c : SetCriterion} {o : Outputs} {ts : List Target}
    {ind : Indices} {nb : ℚ}
    (h : (c.loss_feet o ts ind nb).isSome = true) :
    o.pred_feet_bev.isSome = true ∧ ∀ t ∈ ts, (Target.bev t).isSome = true := by
  cases hP : o.pred_feet_bev with
  | none => simp [SetCriterion.loss_feet, hP] at h
  | some L =>
    cases hl : optList Target.bev ts with
    | none => simp [SetCriterion.loss_feet, hP, hl] at h
    | some labs => exact ⟨by simp [hP], fun t htm => optList_isSome_of_mem hl htm⟩

theorem loss_dims_keys {c : SetCriterion} {o : Outputs} {ts : List Target}
    {ind : Indices} {nb : ℚ}
    (h : (c.loss_dims o ts ind nb).isSome = true) :
    o.pred_dim.isSome = true ∧ ∀ t ∈ ts, (Target.dim t).isSome = true := by
  cases hP : o.pred_dim with
  | none => simp [SetCriterion.loss_dims, hP] at h
  | some L =>
    cases hl : optList Target.dim ts with
    | none => simp [SetCriterion.loss_dims, hP, hl] at h
    | some labs => exact ⟨by simp [hP], fun t htm => optList_isSome_of_mem hl htm⟩

theorem loss_angles_keys {c : SetCriterion} {o : Outputs} {ts : List Target}
    {ind : Indices} {nb : ℚ}
    (h : (c.loss_angles o ts ind nb).isSome = true) :
    o.pred_angle.isSome = true ∧
      ∀ t ∈ ts, (Target.heading_bin t).isSome = true ∧ (Target.heading_res t).isSome = true := by
  cases hP : o.pred_angle with
  | none => simp [SetCriterion.loss_angles, hP] at h
  | some L =>
    cases hb : optList Target.heading_bin ts with
    | none => simp [SetCriterion.loss_angles, hP, hb] at h
    | some tbin =>
      cases hr : optList Target.heading_res ts with
      | none => simp [SetCriterion.loss_angles, hP, hb, hr] at h
      | some tres =>
        exact ⟨by simp [hP],
          fun t htm => ⟨optList_isSome_of_mem hb htm, optList_isSome_of_mem hr htm⟩⟩

theorem loss_depth_keys {c : SetCriterion} {o : Outputs} {ts : List Target}
    {ind : Indices} {nb : ℚ}
    (h : (c.loss_depth_multi_bin o ts ind nb).isSome = true) :
    (o.pred_depth_bin.isSome = true ∧ o.pred_depth_delta.isSome = true) ∧
      ∀ t ∈ ts, (Target.depth t).isSome = true := by
  cases hP : o.pred_depth_bin with
  | none => simp [SetCriterion.loss_depth_multi_bin, hP] at h
  | some L =>
    cases hD : o.pred_depth_delta with
    | none => simp [SetCriterion.loss_depth_multi_bin, hP, hD] at h
    | some D =>
      cases hl : optList Target.depth ts with
      | none => simp [SetCriterion.loss_depth_multi_bin, hP, hD, hl] at h
      | some tdep =>
        exact ⟨⟨by simp [hP], by simp [hD]⟩, fun t htm => optList_isSome_of_mem hl htm⟩

/-- C7: a loss invocation succeeds only if its loss name is one of the ten
registered names and every required output key and per-target key is present —
equivalently, `get_loss` fails for any unregistered name and every per-task loss
fails when a required output or target key is absent; nothing is silently
skipped or defaulted. -/
theorem C7_missing_field_failure (c : SetCriterion) (s : String) (o : Outputs)
    (ts : List Target) (ind : Indices) (nb : ℚ) (log : Bool)
    (h : (c.get_loss s o ts ind nb log).isSome = true) :
    s ∈ lossRegistry ∧ outputs_has_required s o ∧ ∀ t ∈ ts, target_has_required s t := by
  by_cases h1 : s = "labels"
  · subst h1
    obtain ⟨ho, htg⟩ := loss_labels_keys (by simpa [SetCriterion.get_loss] using h)
    exact ⟨by simp [lossRegistry], by simpa [outputs_has_required] using ho,
      fun t htm => by simpa [target_has_required] using htg t htm⟩
  by_cases h2 : s = "cardinality"
  · subst h2
    obtain ⟨ho, htg⟩ := loss_cardinality_keys (by simpa [SetCriterion.get_loss] using h)
    exact ⟨by simp [lossRegistry], by simpa [outputs_has_required] using ho,
      fun t htm => by simpa [target_has_required] using htg t htm⟩
  by_cases h3 : s = "boxes"
  · subst h3
    obtain ⟨ho, htg⟩ := loss_boxes_keys (by simpa [SetCriterion.get_loss] using h)
    exact ⟨by simp [lossRegistry], by simpa [outputs_has_required] using ho,
      fun t htm => by simpa [target_has_required] using htg t htm⟩
  by_cases h4 : s = "masks"
  · subst h4
    obtain ⟨ho, htg⟩ := loss_masks_keys (by simpa [SetCriterion.get_loss] using h)
    exact ⟨by simp [lossRegistry], by simpa [outputs_has_required] using ho,
      fun t htm => by simpa [target_has_required] using htg t htm⟩
  by_cases h5 : s = "bev"
  · subst h5
    obtain ⟨ho, htg⟩ := loss_bev_keys (by simpa [SetCriterion.get_loss] using h)
    exact ⟨by simp [lossRegistry], by simpa [outputs_has_required] using ho,
      fun t htm => by simpa [target_has_required] using htg t htm⟩
  by_cases h6 : s = "dim"
  · subst h6
    obtain ⟨ho, htg⟩ := loss_dims_keys (by simpa [SetCriterion.get_loss] using h)
    exact ⟨by simp [lossRegistry], by simpa [outputs_has_required] using ho,
      fun t htm => by simpa [target_has_required] using htg t htm⟩
  by_cases h7 : s = "angle"
  · subst h7
    obtain ⟨ho, htg⟩ := loss_angles_keys (by simpa [SetCriterion.get_loss] using h)
    exact ⟨by simp [lossRegistry], by simpa [outputs_has_required] using ho,
      fun t htm => by simpa [target_has_required] using htg t htm⟩
  by_cases h8 : s = "depth"
  · subst h8
    obtain ⟨ho, htg⟩ := loss_depth_keys (by simpa [SetCriterion.get_loss] using h)
    exact ⟨by simp [lossRegistry], by simpa [outputs_has_required] using ho,
      fun t htm => by simpa [target_has_required] using htg t htm⟩
  by_cases h9 : s = "head"
  · subst h9
    obtain ⟨ho, htg⟩ := loss_head_keys (by simpa [SetCriterion.get_loss] using h)
    exact ⟨by simp [lossRegistry], by simpa [outputs_has_required] using ho,
      fun t htm => by simpa [target_has_required] using htg t htm⟩
  by_cases h10 : s = "feet"
  · subst h10
    obtain ⟨ho, htg⟩ := loss_feet_keys (by simpa [SetCriterion.get_loss] using h)
    exact ⟨by simp [lossRegistry], by simpa [outputs_has_required] using ho,
      fun t htm => by simpa [target_has_required] using htg t htm⟩
  · exfalso
    simp [SetCriterion.get_loss, h1, h2, h3, h4, h5, h6, h7, h8, h9, h10] at h

theorem C7_witness :
    (exC.get_loss "labels" exOut [exTgt] exInd 1 true).isSome = true ∧
    ("labels" ∈ lossRegistry ∧ outputs_has_required "labels" exOut ∧
      ∀ t ∈ [exTgt], target_has_required "labels" t) :=
  ⟨rfl, C7_missing_field_failure exC "labels" exOut [exTgt] exInd 1 true rfl⟩

theorem get_loss_names {c : SetCriterion} {s : String} {o : Outputs} {ts : List Target}
    {ind : Indices} {nb : ℚ} {log : Bool} {out : List (String × ℝ)}
    (h : c.get_loss s o ts ind nb log = some out) :
    out.map Prod.fst = lossNames s log := by
  by_cases h1 : s = "labels"
  · subst h1
    have h : c.loss_labels o ts ind nb log = some out := by
      simpa [SetCriterion.get_loss] using h
    cases hP : o.pred_logits with
    | none => simp [SetCriterion.loss_labels, hP] at h
    | some L =>
      cases hl : optList Target.labels ts with
      | none => simp [SetCriterion.loss_labels, hP, hl] at h
      | some labs =>
        simp only [SetCriterion.loss_labels, hP, hl, Option.bind_eq_bind, Option.some_bind,
          Option.pure_def, Option.some.injEq] at h
        subst h
        cases log <;> simp [lossNames]
  by_cases h2 : s = "cardinality"
  · subst h2
    have h : c.loss_cardinality o ts ind nb = some out := by
      simpa [SetCriterion.get_loss, h1] using h
    cases hP : o.pred_logits with
    | none => simp [SetCriterion.loss_cardinality, hP] at h
    | some L =>
      cases hl : optList Target.labels ts with
      | none => simp [SetCriterion.loss_cardinality, hP, hl] at h
      | some labs =>
        simp only [SetCriterion.loss_cardinality, hP, hl, Option.bind_eq_bind, Option.some_bind,
          Option.pure_def, Option.some.injEq] at h
        subst h
        simp [lossNames]
  by_cases h3 : s = "boxes"
  · subst h3
    have h : c.loss_boxes o ts ind nb = some out := by
      simpa [SetCriterion.get_loss, h1, h2] using h
    cases hP : o.pred_boxes with
    | none => simp [SetCriterion.loss_boxes, hP] at h
    | some L =>
      cases hl : optList Target.boxes ts with
      | none => simp [SetCriterion.loss_boxes, hP, hl] at h
      | some labs =>
        simp only [SetCriterion.loss_boxes, hP, hl, Option.bind_eq_bind, Option.some_bind,
          Option.pure_def, Option.some.injEq] at h
        subst h
        simp [lossNames]
  by_cases h4 : s = "masks"
  · subst h4
    have h : c.loss_masks o ts ind nb = some out := by
      simpa [SetCriterion.get_loss, h1, h2, h3] using h
    cases hP : o.pred_masks with
    | none => simp [SetCriterion.loss_masks, hP] at h
    | some L =>
      cases hl : optList Target.masks ts with
      | none => simp [SetCriterion.loss_masks, hP, hl] at h
      | some labs =>
        simp only [SetCriterion.loss_masks, hP, hl, Option.bind_eq_bind, Option.some_bind,
          Option.pure_def, Option.some.injEq] at h
        subst h
        simp [lossNames]
  by_cases h5 : s = "bev"
  · subst h5
    have h : c.loss_bev o ts ind nb = some out := by
      simpa [SetCriterion.get_loss, h1, h2, h3, h4] using h
    cases hP : o.pred_bev with
    | none => simp [SetCriterion.loss_bev, hP] at h
    | some L =>
      cases hl : optList Target.bev ts with
      | none => simp [SetCriterion.loss_bev, hP, hl] at h
      | some labs =>
        simp only [SetCriterion.loss_bev, hP, hl, Option.bind_eq_bind, Option.some_bind,
          Option.pure_def, Option.some.injEq] at h
        subst h
        simp [lossNames]
  by_cases h6 : s = "dim"
  · subst h6
    have h : c.loss_dims o ts ind nb = some out := by
      simpa [SetCriterion.get_loss, h1, h2, h3, h4, h5] using h
    cases hP : o.pred_dim with
    | none => simp [SetCriterion.loss_dims, hP] at h
    | some L =>
      cases hl : optList Target.dim ts with
      | none => simp [SetCriterion.loss_dims, hP, hl] at h
      | some labs =>
        simp only [SetCriterion.loss_dims, hP, hl, Option.bind_eq_bind, Option.some_bind,
          Option.pure_def, Option.some.injEq] at h
        subst h
        simp [lossNames]
  by_cases h7 : s = "angle"
  · subst h7
    have h : c.loss_angles o ts ind nb = some out := by
      simpa [SetCriterion.get_loss, h1, h2, h3, h4, h5, h6] using h
    cases hP : o.pred_angle with
    | none => simp [SetCriterion.loss_angles, hP] at h
    | some L =>
      cases hb : optList Target.heading_bin ts with
      | none => simp [SetCriterion.loss_angles, hP, hb] at h
      | some tbin =>
        cases hr : optList Target.heading_res ts with
        | none => simp [SetCriterion.loss_angles, hP, hb, hr] at h
        | some tres =>
          simp only [SetCriterion.loss_angles, hP, hb, hr, Option.bind_eq_bind,
            Option.some_bind, Option.pure_def] at h
          by_cases hall : (cat_gather tbin ind 0).all (fun k => decide (k < 12))
          · rw [if_pos hall] at h
            obtain rfl : _ = out := by simpa using h
            simp [lossNames]
          · rw [if_neg hall] at h
            cases h
  by_cases h8 : s = "depth"
  · subst h8
    have h : c.loss_depth_multi_bin o ts ind nb = some out := by
      simpa [SetCriterion.get_loss, h1, h2, h3, h4, h5, h6, h7] using h
    cases hP : o.pred_depth_bin with
    | none => simp [SetCriterion.loss_depth_multi_bin, hP] at h
    | some L =>
      cases hD : o.pred_depth_delta with
      | none => simp [SetCriterion.loss_depth_multi_bin, hP, hD] at h
      | some D =>
        cases hl : optList Target.depth ts with
        | none => simp [SetCriterion.loss_depth_multi_bin, hP, hD, hl] at h
        | some tdep =>
          simp only [SetCriterion.loss_depth_multi_bin, hP, hD, hl, Option.bind_eq_bind,
            Option.some_bind, Option.pure_def] at h
          split at h
          · cases h
          · split at h
            · obtain rfl : _ = out := by simpa using h
              simp [lossNames]
            · cases h
  by_cases h9 : s = "head"
  · subst h9
    have h : c.loss_head o ts ind nb = some out := by
      simpa [SetCriterion.get_loss, h1, h2, h3, h4, h5, h6, h7, h8] using h
    cases hP : o.pred_head_bev with
    | none => simp [SetCriterion.loss_head, hP] at h
    | some L =>
      cases hl : optList Target.bev ts with
      | none => simp [SetCriterion.loss_head, hP, hl] at h
      | some labs =>
        simp only [SetCriterion.loss_head, hP, hl, Option.bind_eq_bind, Option.some_bind,
          Option.pure_def, Option.some.injEq] at h
        subst h
        simp [lossNames]
  by_cases h10 : s = "feet"
  · subst h10
    have h : c.loss_feet o ts ind nb = some out := by
      simpa [SetCriterion.get_loss, h1, h2, h3, h4, h5, h6, h7, h8, h9] using h
    cases hP : o.pred_feet_bev with
    | none => simp [SetCriterion.loss_feet, hP] at h
    | some L =>
      cases hl : optList Target.bev ts with
      | none => simp [SetCriterion.loss_feet, hP, hl] at h
      | some labs =>
        simp only [SetCriterion.loss_feet, hP, hl, Option.bind_eq_bind, Option.some_bind,
          Option.pure_def, Option.some.injEq] at h
        subst h
        simp [lossNames]
  · exfalso
    simp [SetCriterion.get_loss, h1, h2, h3, h4, h5, h6, h7, h8, h9, h10] at h

theorem run_losses_names {c : SetCriterion} {o : Outputs} {ts : List Target}
    {ind : Indices} {nb : ℚ} {log : Bool} :
    ∀ {ls : List String} {out : List (String × ℝ)},
      c.run_losses o ts ind nb log ls = some out →
        out.map Prod.fst = (ls.map (fun s => lossNames s log)).flatten := by
  intro ls
  induction ls with
  | nil =>
    intro out h
    simp only [SetCriterion.run_losses, Option.some.injEq] at h
    subst h
    simp
  | cons l rest ih =>
    intro out h
    cases hx : c.get_loss l o ts ind nb log with
    | none => simp [SetCriterion.run_losses, hx] at h
    | some x =>
      cases hr : c.run_losses o ts ind nb log rest with
      | none => simp [SetCriterion.run_losses, hx, hr] at h
      | some r =>
        simp only [SetCriterion.run_losses, hx, hr, Option.bind_eq_bind, Option.some_bind,
          Option.pure_def, Option.some.injEq] at h
        subst h
        simp only [List.map_append, List.map_cons, List.flatten_cons]
        rw [get_loss_names hx, ih hr]

theorem forall₂_map_eq {α β γ : Type} {R : α → β → Prop} {l : List α} {r : List β}
    (h : List.Forall₂ R l r) (g : β → γ) (f : α → γ)
    (hp : ∀ a b, R a b → g b = f a) : r.map g = l.map f := by
  induction h with
  | nil => rfl
  | cons hab _ ih => simp_all [hp _ _ hab]

theorem class_error_final_only (s : String) : "class_error" ∉ lossNames s false := by
  by_cases h1 : s = "labels"
  · subst h1; simp [lossNames]
  by_cases h2 : s = "cardinality"
  · subst h2; simp [lossNames]
  by_cases h3 : s = "boxes"
  · subst h3; simp [lossNames]
  by_cases h4 : s = "masks"
  · subst h4; simp [lossNames]
  by_cases h5 : s = "bev"
  · subst h5; simp [lossNames]
  by_cases h6 : s = "dim"
  · subst h6; simp [lossNames]
  by_cases h7 : s = "angle"
  · subst h7; simp [lossNames]
  by_cases h8 : s = "depth"
  · subst h8; simp [lossNames]
  by_cases h9 : s = "head"
  · subst h9; simp [lossNames]
  by_cases h10 : s = "feet"
  · subst h10; simp [lossNames]
  · simp [lossNames, h1, h2, h3, h4, h5, h6, h7, h8, h9, h10]

theorem mask_names_only_masks (s : String) (hs : s ≠ "masks") (log : Bool) :
    "loss_mask" ∉ lossNames s log ∧ "loss_dice" ∉ lossNames s log := by
  by_cases h1 : s = "labels"
  · subst h1; cases log <;> simp [lossNames]
  by_cases h2 : s = "cardinality"
  · subst h2; simp [lossNames]
  by_cases h3 : s = "boxes"
  · subst h3; simp [lossNames]
  by_cases h5 : s = "bev"
  · subst h5; simp [lossNames]
  by_cases h6 : s = "dim"
  · subst h6; simp [lossNames]
  by_cases h7 : s = "angle"
  · subst h7; simp [lossNames]
  by_cases h8 : s = "depth"
  · subst h8; simp [lossNames]
  by_cases h9 : s = "head"
  · subst h9; simp [lossNames]
  by_cases h10 : s = "feet"
  · subst h10; simp [lossNames]
  · simp [lossNames, h1, h2, h3, hs, h5, h6, h7, h8, h9, h10]

/-- C2: when `aux_outputs` holds `k` auxiliary bundles, `forward` re-matches
independently per auxiliary bundle and, for every requested loss except
`masks`, appends entries named by suffixing the loss's names with
`_<layer index>`; the `masks` loss contributes no suffixed entries and the
`class_error` diagnostic is only ever emitted unsuffixed, for the final layer
(auxiliary layers run with `log = false`, whose name set never contains
`class_error`, `loss_mask` or `loss_dice`). -/
theorem C2_aux_outputs_structure (c : SetCriterion) (env : DistEnv) (fo : FullOutputs)
    (ts : List Target) (aux_list : List Outputs) (res : List (String × ℝ))
    (haux : fo.aux_outputs = some aux_list)
    (h : c.forward env fo ts = some res) :
    ∃ (labs : List (List ℕ)) (fin : List (String × ℝ)) (parts : List (List (String × ℝ))),
      optList Target.labels ts = some labs ∧
      c.run_losses fo.main ts (c.matcher fo.main ts)
        (specDenominator (labs.map List.length).sum env) true c.losses = some fin ∧
      List.Forall₂ (fun (p : ℕ × Outputs) part => ∃ ld,
        c.run_losses p.2 ts (c.matcher p.2 ts)
          (specDenominator (labs.map List.length).sum env) false
          (c.losses.filter (fun s => s != "masks")) = some ld ∧
        part = ld.map (fun e => (e.1 ++ "_" ++ toString p.1, e.2))) aux_list.enum parts ∧
      res = fin ++ parts.flatten ∧
      res.map Prod.fst =
        (c.losses.map (fun s => lossNames s true)).flatten ++
        (aux_list.enum.map (fun p =>
          (((c.losses.filter (fun s => s != "masks")).map
            (fun s => lossNames s false)).flatten.map
            (fun nm => nm ++ "_" ++ toString p.1)))).flatten ∧
      (∀ p ∈ aux_list.enum, ∀ s ∈ c.losses, s ≠ "masks" → ∀ nm ∈ lossNames s false,
        (nm ++ "_" ++ toString p.1) ∈ res.map Prod.fst) ∧
      (∀ s, "class_error" ∉ lossNames s false) ∧
      (∀ s, s ≠ "masks" → "loss_mask" ∉ lossNames s false ∧ "loss_dice" ∉ lossNames s false) := by
  cases hlab : optList Target.labels ts with
  | none => simp [SetCriterion.forward, hlab] at h
  | some labs =>
    simp only [SetCriterion.forward, hlab, haux, Option.bind_eq_bind, Option.some_bind] at h
    obtain ⟨fin, hfin, h⟩ := Option.bind_eq_some.mp h
    obtain ⟨parts, hparts, h⟩ := Option.bind_eq_some.mp h
    simp only [Option.pure_def, Option.some.injEq] at h
    subst h
    have hforall := (optList_forall₂ _ _ _).mp hparts
    have hforall2 : List.Forall₂ (fun (p : ℕ × Outputs) part => ∃ ld,
        c.run_losses p.2 ts (c.matcher p.2 ts)
          (specDenominator (labs.map List.length).sum env) false
          (c.losses.filter (fun s => s != "masks")) = some ld ∧
        part = ld.map (fun e => (e.1 ++ "_" ++ toString p.1, e.2))) aux_list.enum parts := by
      refine List.Forall₂.imp ?_ hforall
      intro p part hf
      simp only [Option.bind_eq_bind] at hf
      obtain ⟨ld, hld, hmap⟩ := Option.bind_eq_some.mp hf
      simp only [Option.pure_def, Option.some.injEq] at hmap
      exact ⟨ld, by simpa [specDenominator] using hld, hmap.symm⟩
    have hkeys : (fin ++ parts.flatten).map Prod.fst =
        (c.losses.map (fun s => lossNames s true)).flatten ++
        (aux_list.enum.map (fun p =>
          (((c.losses.filter (fun s => s != "masks")).map
            (fun s => lossNames s false)).flatten.map
            (fun nm => nm ++ "_" ++ toString p.1)))).flatten := by
      rw [List.map_append, run_losses_names hfin, List.map_flatten]
      congr 1
      rw [forall₂_map_eq hforall2 (List.map Prod.fst)
        (fun p => (((c.losses.filter (fun s => s != "masks")).map
          (fun s => lossNames s false)).flatten.map (fun nm => nm ++ "_" ++ toString p.1)))]
      intro p part hpp
      obtain ⟨ld, hld, rfl⟩ := hpp
      rw [List.map_map, ← run_losses_names hld, List.map_map]
      rfl
    refine ⟨labs, fin, parts, rfl, by simpa [specDenominator] using hfin, hforall2, rfl,
      hkeys, ?_, fun s => class_error_final_only s,
      fun s hs => mask_names_only_masks s hs false⟩
    intro p hp s hsin hsne nm hnm
    rw [hkeys]
    apply List.mem_append_right
    rw [List.mem_flatten]
    refine ⟨(((c.losses.filter (fun s => s != "masks")).map
      (fun s => lossNames s false)).flatten.map (fun nm => nm ++ "_" ++ toString p.1)),
      List.mem_map_of_mem _ hp, ?_⟩
    apply List.mem_map_of_mem
    rw [List.mem_flatten]
    exact ⟨lossNames s false,
      List.mem_map_of_mem _ (List.mem_filter.mpr ⟨hsin, by simp [hsne]⟩), hnm⟩

theorem eq_some_getD {α : Type} {o : Option α} (h : o.isSome = true) (d : α) :
    o = some (o.getD d) := by
  cases o with
  | none => cases h
  | some a => rfl

theorem C2_witness :
    exFull.aux_outputs = some [exOut] ∧
    exC.forward exEnv exFull [exTgt] = some exRes ∧
    (∃ (labs : List (List ℕ)) (fin : List (String × ℝ)) (parts : List (List (String × ℝ))),
      optList Target.labels [exTgt] = some labs ∧
      exC.run_losses exFull.main [exTgt] (exC.matcher exFull.main [exTgt])
        (specDenominator (labs.map List.length).sum exEnv) true exC.losses = some fin ∧
      List.Forall₂ (fun (p : ℕ × Outputs) part => ∃ ld,
        exC.run_losses p.2 [exTgt] (exC.matcher p.2 [exTgt])
          (specDenominator (labs.map List.length).sum exEnv) false
          (exC.losses.filter (fun s => s != "masks")) = some ld ∧
        part = ld.map (fun e => (e.1 ++ "_" ++ toString p.1, e.2))) ([exOut] : List Outputs).enum parts ∧
      exRes = fin ++ parts.flatten ∧
      exRes.map Prod.fst =
        (exC.losses.map (fun s => lossNames s true)).flatten ++
        (([exOut] : List Outputs).enum.map (fun p =>
          (((exC.losses.filter (fun s => s != "masks")).map
            (fun s => lossNames s false)).flatten.map
            (fun nm => nm ++ "_" ++ toString p.1)))).flatten ∧
      (∀ p ∈ ([exOut] : List Outputs).enum, ∀ s ∈ exC.losses, s ≠ "masks" →
        ∀ nm ∈ lossNames s false, (nm ++ "_" ++ toString p.1) ∈ exRes.map Prod.fst) ∧
      (∀ s, "class_error" ∉ lossNames s false) ∧
      (∀ s, s ≠ "masks" →
        "loss_mask" ∉ lossNames s false ∧ "loss_dice" ∉ lossNames s false)) :=
  have hsome : exC.forward exEnv exFull [exTgt] = some exRes :=
    eq_some_getD (by rfl) []
  ⟨rfl, hsome, C2_aux_outputs_structure exC exEnv exFull [exTgt] [exOut] exRes rfl hsome⟩

theorem replicate_zip {α β : Type} (x : β) :
    ∀ (l : List α), (List.replicate l.length x).zip l = l.map (fun a => (x, a)) := by
  intro l
  induction l with
  | nil => rfl
  | cons a t ih => simp [List.replicate_succ, ih]

theorem getD_set_eq' {α : Type} (l : List α) (i : ℕ) (a d : α) (h : i < l.length) :
    (l.set i a).getD i d = a := by
  simp [List.getD_eq_getElem?_getD, List.getElem?_set_self, h]

theorem getD_set_ne' {α : Type} (l : List α) (i j : ℕ) (a d : α) (h : i ≠ j) :
    (l.set i a).getD j d = l.getD j d := by
  simp [List.getD_eq_getElem?_getD, List.getElem?_set_ne h]

theorem list_ext_getD {α : Type} (dflt : α) (a d : List α) (h : a.length = d.length)
    (hp : ∀ i, i < a.length → a.getD i dflt = d.getD i dflt) : a = d := by
  apply List.ext_getElem?
  intro i
  by_cases hi : i < a.length
  · rw [List.getElem?_eq_getElem hi, List.getElem?_eq_getElem (h ▸ hi)]
    have := hp i hi
    rw [List.getD_eq_getElem?_getD, List.getD_eq_getElem?_getD,
      List.getElem?_eq_getElem hi, List.getElem?_eq_getElem (h ▸ hi)] at this
    simpa using this
  · rw [List.getElem?_eq_none (by omega), List.getElem?_eq_none (by omega)]

theorem upd_eq :
    ∀ (ind : Indices) (labs : List (List ℕ)) (n : ℕ),
      (∀ p ∈ ind, p.1.length = p.2.length) → labs.length = ind.length →
      ((((ind.enumFrom n).map (fun p => List.replicate p.2.1.length p.1)).flatten.zip
        ((ind.map Prod.fst).flatten)).zip (cat_gather labs ind 0)) = updOf labs ind n := by
  intro ind
  induction ind with
  | nil =>
    intro labs n _ _
    simp [cat_gather, updOf]
  | cons p ind' ih =>
    intro labs n hlen hlab
    cases labs with
    | nil => simp at hlab
    | cons lb labs' =>
      have hp : p.1.length = p.2.length := hlen p (by simp)
      have hA : ((List.enumFrom n (p :: ind')).map
          (fun p => List.replicate p.2.1.length p.1)).flatten =
          List.replicate p.1.length n ++
            ((List.enumFrom (n + 1) ind').map
              (fun p => List.replicate p.2.1.length p.1)).flatten := by
        simp [List.enumFrom]
      have hB : ((p :: ind').map Prod.fst).flatten = p.1 ++ (ind'.map Prod.fst).flatten := by
        simp
      have hV : cat_gather (lb :: labs') (p :: ind') 0 =
          p.2.map (fun j => lb.getD j 0) ++ cat_gather labs' ind' 0 := by
        simp [cat_gather]
      rw [hA, hB, hV, List.zip_append (by simp), replicate_zip,
        List.zip_append (by simp [hp])]
      have hchunk : (p.1.map (fun a => (n, a))).zip (p.2.map (fun j => lb.getD j 0)) =
          (p.1.zip p.2).map (fun z => ((n, z.1), lb.getD z.2 0)) := by
        rw [List.zip_map]
        rfl
      rw [hchunk]
      show _ = updOf (lb :: labs') (p :: ind') n
      rw [updOf]
      congr 1
      exact ih labs' (n + 1) (fun q hq => hlen q (by simp [hq])) (by simpa using hlab)

theorem scatter2_length (upd : List ((ℕ × ℕ) × ℕ)) :
    ∀ (g : List (List ℕ)), (scatter2 g upd).length = g.length := by
  induction upd with
  | nil => intro g; rfl
  | cons u rest ih =>
    intro g
    show (scatter2 (g.set u.1.1 ((g.getD u.1.1 []).set u.1.2 u.2)) rest).length = _
    rw [ih, List.length_set]

theorem scatter2_row_length (upd : List ((ℕ × ℕ) × ℕ)) :
    ∀ (g : List (List ℕ)) (b : ℕ),
      ((scatter2 g upd).getD b []).length = (g.getD b []).length := by
  induction upd with
  | nil => intro g b; rfl
  | cons u rest ih =>
    intro g b
    show ((scatter2 (g.set u.1.1 ((g.getD u.1.1 []).set u.1.2 u.2)) rest).getD b []).length = _
    rw [ih]
    by_cases hb : u.1.1 = b
    · subst hb
      by_cases hblen : u.1.1 < g.length
      · rw [getD_set_eq' _ _ _ _ hblen, List.length_set]
      · rw [List.set_eq_of_length_le (by omega)]
    · rw [getD_set_ne' _ _ _ _ _ hb]

theorem scatter2_getD_not_mem (upd : List ((ℕ × ℕ) × ℕ)) :
    ∀ (g : List (List ℕ)) (b q : ℕ), ((b, q) ∉ upd.map Prod.fst) →
      ((scatter2 g upd).getD b []).getD q 0 = (g.getD b []).getD q 0 := by
  induction upd with
  | nil => intro g b q _; rfl
  | cons u rest ih =>
    intro g b q hmem
    have hu : u.1 ≠ (b, q) := by
      intro hcontra
      exact hmem (by simp [hcontra])
    have hrest : (b, q) ∉ rest.map Prod.fst := by
      intro hcontra
      exact hmem (by simp [hcontra])
    show ((scatter2 (g.set u.1.1 ((g.getD u.1.1 []).set u.1.2 u.2)) rest).getD b []).getD q 0 = _
    rw [ih _ _ _ hrest]
    by_cases hb : u.1.1 = b
    · by_cases hblen : u.1.1 < g.length
      · subst hb
        rw [getD_set_eq' _ _ _ _ hblen]
        have hq : u.1.2 ≠ q := by
          intro hcontra
          exact hu (by rw [← hcontra])
        rw [getD_set_ne' _ _ _ _ _ hq]
      · rw [List.set_eq_of_length_le (by omega)]
    · rw [getD_set_ne' _ _ _ _ _ hb]

theorem scatter2_getD_mem (upd : List ((ℕ × ℕ) × ℕ)) :
    ∀ (g : List (List ℕ)) (b q v : ℕ),
      (upd.map Prod.fst).Nodup → (((b, q), v) ∈ upd) →
      b < g.length → q < (g.getD b []).length →
      ((scatter2 g upd).getD b []).getD q 0 = v := by
  induction upd with
  | nil => intro g b q v _ hmem; cases hmem
  | cons u rest ih =>
    intro g b q v hnd hmem hb hq
    show ((scatter2 (g.set u.1.1 ((g.getD u.1.1 []).set u.1.2 u.2)) rest).getD b []).getD q 0 = v
    have hcons : (u.1 :: rest.map Prod.fst).Nodup := by simpa using hnd
    rcases List.mem_cons.mp hmem with rfl | hrest
    · have hnotin : (b, q) ∉ rest.map Prod.fst := by
        simpa using (List.nodup_cons.mp hcons).1
      rw [scatter2_getD_not_mem rest _ _ _ hnotin]
      rw [getD_set_eq' _ _ _ _ hb, getD_set_eq' _ _ _ _ hq]
    · have hnd' : (rest.map Prod.fst).Nodup := (List.nodup_cons.mp hcons).2
      have hb' : b < (g.set u.1.1 ((g.getD u.1.1 []).set u.1.2 u.2)).length := by
        rwa [List.length_set]
      have hq' : q < ((g.set u.1.1 ((g.getD u.1.1 []).set u.1.2 u.2)).getD b []).length := by
        by_cases hub : u.1.1 = b
        · subst hub
          by_cases hblen : u.1.1 < g.length
          · rwa [getD_set_eq' _ _ _ _ hblen, List.length_set]
          · rwa [List.set_eq_of_length_le (by omega)]
        · rwa [getD_set_ne' _ _ _ _ _ hub]
      exact ih _ b q v hnd' hrest hb' hq'

theorem updOf_key_lb :
    ∀ (ind : Indices) (labs : List (List ℕ)) (n : ℕ) (k : ℕ × ℕ),
      k ∈ (updOf labs ind n).map Prod.fst → n ≤ k.1 := by
  intro ind
  induction ind with
  | nil => intro labs n k hk; simp [updOf] at hk
  | cons p ind' ih =>
    intro labs n k hk
    rw [updOf] at hk
    rcases List.mem_map.mp hk with ⟨u, hu, rfl⟩
    rcases List.mem_append.mp hu with hhead | htail
    · rcases List.mem_map.mp hhead with ⟨z, _, rfl⟩
      simp
    · have := ih (labs.drop 1) (n + 1) u.1 (List.mem_map_of_mem _ htail)
      omega

theorem updOf_mem_key :
    ∀ (ind : Indices) (labs : List (List ℕ)) (n b q : ℕ),
      ((b, q) ∈ (updOf labs ind n).map Prod.fst) →
      ∃ i, i < ind.length ∧ b = n + i ∧ q ∈ (ind.getD i ([], [])).1 := by
  intro ind
  induction ind with
  | nil => intro labs n b q hk; simp [updOf] at hk
  | cons p ind' ih =>
    intro labs n b q hk
    rw [updOf] at hk
    rcases List.mem_map.mp hk with ⟨u, hu, huk⟩
    rcases List.mem_append.mp hu with hhead | htail
    · rcases List.mem_map.mp hhead with ⟨z, hz, rfl⟩
      obtain ⟨rfl, rfl⟩ : n = b ∧ z.1 = q := by
        constructor <;> simp [Prod.ext_iff] at huk <;> tauto
      refine ⟨0, by simp, by omega, ?_⟩
      have := List.of_mem_zip hz
      simpa using this.1
    · have := ih (labs.drop 1) (n + 1) b q
        (by have hm := List.mem_map_of_mem Prod.fst htail; rwa [huk] at hm)
      obtain ⟨i, hi, hb, hq⟩ := this
      exact ⟨i + 1, by simpa using hi, by omega, by simpa using hq⟩

theorem updOf_keys_nodup :
    ∀ (ind : Indices) (labs : List (List ℕ)) (n : ℕ),
      (∀ p ∈ ind, p.1.Nodup) → (∀ p ∈ ind, p.1.length = p.2.length) →
      ((updOf labs ind n).map Prod.fst).Nodup := by
  intro ind
  induction ind with
  | nil => intro labs n _ _; simp [updOf]
  | cons p ind' ih =>
    intro labs n hnd hlen
    rw [updOf, List.map_append]
    apply List.Nodup.append
    · rw [List.map_map]
      have hkeys : ((p.1.zip p.2).map
          (Prod.fst ∘ fun z => ((n, z.1), (labs.getD 0 []).getD z.2 0))) =
          ((p.1.zip p.2).map Prod.fst).map (fun a => (n, a)) := by
        rw [List.map_map]
        rfl
      rw [hkeys, List.map_fst_zip _ _ (le_of_eq (hlen p (by simp)))]
      exact (hnd p (by simp)).map (fun a b hab => by simpa using hab)
    · exact ih (labs.drop 1) (n + 1) (fun q hq => hnd q (by simp [hq]))
        (fun q hq => hlen q (by simp [hq]))
    · intro k hk1 hk2
      rcases List.mem_map.mp hk1 with ⟨u, hu, rfl⟩
      rcases List.mem_map.mp hu with ⟨z, _, rfl⟩
      have := updOf_key_lb ind' (labs.drop 1) (n + 1) _ hk2
      simp at this

theorem updOf_mem_val :
    ∀ (ind : Indices) (labs : List (List ℕ)) (n i : ℕ) (z : ℕ × ℕ),
      i < ind.length → z ∈ ((ind.getD i ([], [])).1.zip (ind.getD i ([], [])).2) →
      ((n + i, z.1), (labs.getD i []).getD z.2 0) ∈ updOf labs ind n := by
  intro ind
  induction ind with
  | nil => intro labs n i z hi; simp at hi
  | cons p ind' ih =>
    intro labs n i z hi hz
    rw [updOf]
    cases i with
    | zero =>
      apply List.mem_append_left
      apply List.mem_map_of_mem
      simpa using hz
    | succ i' =>
      apply List.mem_append_right
      have := ih (labs.drop 1) (n + 1) i' z
        (by rw [List.length_cons] at hi; omega) (by simpa using hz)
      have harith : n + 1 + i' = n + (i' + 1) := by omega
      have hdrop : (labs.drop 1).getD i' [] = labs.getD (i' + 1) [] := by
        have h1 : 1 + i' = i' + 1 := by omega
        rw [List.getD_eq_getElem?_getD, List.getD_eq_getElem?_getD, List.getElem?_drop, h1]
      rwa [harith, hdrop] at this

theorem getD_replicate {α : Type} (n i : ℕ) (x d : α) (h : i < n) :
    (List.replicate n x).getD i d = x := by
  rw [List.getD_eq_getElem?_getD, List.getElem?_replicate]
  simp [h]

theorem getD_range_map {α : Type} (f : ℕ → α) (B b : ℕ) (d : α) (h : b < B) :
    ((List.range B).map f).getD b d = f b := by
  rw [List.getD_eq_getElem?_getD, List.getElem?_map, List.getElem?_range h]
  rfl

theorem scatter_eq_spec (C : ℕ) (labs : List (List ℕ)) (ind : Indices) (B Q : ℕ)
    (hiB : ind.length = B)
    (hnd : ∀ p ∈ ind, p.1.Nodup)
    (hlen : ∀ p ∈ ind, p.1.length = p.2.length) :
    scatter2 (List.replicate B (List.replicate Q C)) (updOf labs ind 0) =
      spec_target_classes C labs ind B Q := by
  apply list_ext_getD ([] : List ℕ)
  · rw [scatter2_length, List.length_replicate, spec_target_classes, List.length_map,
      List.length_range]
  · intro b hb
    rw [scatter2_length, List.length_replicate] at hb
    have hspecrow : (spec_target_classes C labs ind B Q).getD b [] =
        (List.range Q).map (fun q =>
          match ((ind.getD b ([], [])).1.zip (ind.getD b ([], [])).2).find?
              (fun p => decide (p.1 = q)) with
          | some p => (labs.getD b []).getD p.2 0
          | none => C) := by
      rw [spec_target_classes, getD_range_map _ _ _ _ hb]
    apply list_ext_getD 0
    · rw [scatter2_row_length, getD_replicate _ _ _ _ hb, List.length_replicate, hspecrow,
        List.length_map, List.length_range]
    · intro q hqlt
      rw [scatter2_row_length, getD_replicate _ _ _ _ hb, List.length_replicate] at hqlt
      rw [hspecrow, getD_range_map _ _ _ _ hqlt]
      cases hfind : ((ind.getD b ([], [])).1.zip (ind.getD b ([], [])).2).find?
          (fun p => decide (p.1 = q)) with
      | none =>
        have hnotin : (b, q) ∉ (updOf labs ind 0).map Prod.fst := by
          intro hmem
          obtain ⟨i, hi, hbi, hqmem⟩ := updOf_mem_key ind labs 0 b q hmem
          have hib : i = b := by omega
          subst hib
          have hmem_ind : ind.getD i ([], []) ∈ ind := by
            rw [List.getD_eq_getElem?_getD, List.getElem?_eq_getElem hi]
            exact List.getElem_mem hi
          have hzlen : (ind.getD i ([], [])).1.length = (ind.getD i ([], [])).2.length :=
            hlen _ hmem_ind
          have hfst : ((ind.getD i ([], [])).1.zip (ind.getD i ([], [])).2).map Prod.fst =
              (ind.getD i ([], [])).1 := List.map_fst_zip _ _ (le_of_eq hzlen)
          rw [← hfst] at hqmem
          rcases List.mem_map.mp hqmem with ⟨z, hz, rfl⟩
          have := List.find?_eq_none.mp hfind z hz
          simp at this
        rw [scatter2_getD_not_mem _ _ _ _ hnotin, getD_replicate _ _ _ _ hb,
          getD_replicate _ _ _ _ hqlt]
      | some p =>
        have hp_mem : p ∈ (ind.getD b ([], [])).1.zip (ind.getD b ([], [])).2 :=
          List.mem_of_find?_eq_some hfind
        have hp1 : p.1 = q := by simpa using List.find?_some hfind
        have hval := updOf_mem_val ind labs 0 b p (by omega) hp_mem
        rw [Nat.zero_add, hp1] at hval
        rw [scatter2_getD_mem _ _ _ _ _ (updOf_keys_nodup ind labs 0 hnd hlen) hval
          (by rw [List.length_replicate]; exact hb)
          (by rw [getD_replicate _ _ _ _ hb, List.length_replicate]; exact hqlt)]

theorem empty_weight_eq_spec (C : ℕ) (eos : ℚ) :
    (List.replicate (C + 1) (1 : ℚ)).set C eos = spec_empty_weight C eos := by
  apply list_ext_getD (0 : ℚ)
  · rw [List.length_set, List.length_replicate, spec_empty_weight, List.length_map,
      List.length_range]
  · intro i hi
    rw [List.length_set, List.length_replicate] at hi
    rw [spec_empty_weight, getD_range_map _ _ _ _ hi]
    by_cases hiC : i = C
    · subst hiC
      rw [getD_set_eq' _ _ _ _ (by rw [List.length_replicate]; omega), if_pos rfl]
    · rw [getD_set_ne' _ _ _ _ _ (fun h => hiC h.symm), getD_replicate _ _ _ _ hi, if_neg hiC]

/-- C3: `loss_labels` returns `loss_ce` equal to the weighted cross-entropy over
`C+1` classes of every query's logits against the per-query target tensor in
which each matched query carries its assigned target's class label and each
unmatched query carries the no-object index `C`, weighted by the vector that is
all ones except `eos_coef` at the no-object index; with logging it additionally
returns `class_error` = 100 minus the top-1 accuracy of the matched queries'
logits against their target classes. -/
theorem C3_loss_labels_weighted_ce (c : SetCriterion) (o : Outputs) (ts : List Target)
    (ind : Indices) (nb : ℚ) (L : T3) (labs : List (List ℕ))
    (hP : o.pred_logits = some L) (hl : optList Target.labels ts = some labs)
    (hiB : ind.length = L.length) (hlab : labs.length = ind.length)
    (hnd : ∀ p ∈ ind, p.1.Nodup)
    (hlen : ∀ p ∈ ind, p.1.length = p.2.length) :
    c.loss_labels o ts ind nb true = some
      [("loss_ce", weightedCE L.flatten
          (spec_target_classes c.num_classes labs ind L.length
            (L.getD 0 []).length).flatten
          (spec_empty_weight c.num_classes c.eos_coef)),
       ("class_error", 100 - ((accuracy1
          (gather2 L (get_src_permutation_idx ind).1 (get_src_permutation_idx ind).2 [])
          (cat_gather labs ind 0) : ℚ) : ℝ))] := by
  have hupd : ((get_src_permutation_idx ind).1.zip
      (get_src_permutation_idx ind).2).zip (cat_gather labs ind 0) = updOf labs ind 0 := by
    have := upd_eq ind labs 0 hlen hlab
    rw [show List.enumFrom 0 ind = ind.enum from rfl] at this
    simpa [get_src_permutation_idx] using this
  simp only [SetCriterion.loss_labels, hP, hl, Option.bind_eq_bind, Option.some_bind,
    Option.pure_def, if_pos]
  rw [hupd, scatter_eq_spec c.num_classes labs ind L.length (L.getD 0 []).length hiB hnd hlen]
  rw [show c.empty_weight = spec_empty_weight c.num_classes c.eos_coef from
    empty_weight_eq_spec c.num_classes c.eos_coef]

theorem C3_witness :
    exOut.pred_logits = some [[[1, 0, 0], [0, 1, 0]]] ∧
    optList Target.labels [exTgt] = some [[1]] ∧
    exInd.length = ([[[1, 0, 0], [0, 1, 0]]] : T3).length ∧
    ([[1]] : List (List ℕ)).length = exInd.length ∧
    (∀ p ∈ exInd, p.1.Nodup) ∧
    (∀ p ∈ exInd, p.1.length = p.2.length) ∧
    exC.loss_labels exOut [exTgt] exInd 1 true = some
      [("loss_ce", weightedCE ([[[1, 0, 0], [0, 1, 0]]] : T3).flatten
          (spec_target_classes exC.num_classes [[1]] exInd
            ([[[1, 0, 0], [0, 1, 0]]] : T3).length
            (([[[1, 0, 0], [0, 1, 0]]] : T3).getD 0 []).length).flatten
          (spec_empty_weight exC.num_classes exC.eos_coef)),
       ("class_error", 100 - ((accuracy1
          (gather2 [[[1, 0, 0], [0, 1, 0]]] (get_src_permutation_idx exInd).1
            (get_src_permutation_idx exInd).2 [])
          (cat_gather [[1]] exInd 0) : ℚ) : ℝ))] :=
  ⟨rfl, rfl, rfl, rfl, by decide, by decide,
    C3_loss_labels_weighted_ce exC exOut [exTgt] exInd 1 [[[1, 0, 0], [0, 1, 0]]] [[1]]
      rfl rfl rfl rfl (by decide) (by decide)⟩

/-- C4 (amended): for every call with at least two matched pairs, at least two
depth bins, positive bin resolution, and every matched target depth in
`[0, n_depth_bins · depth_bin_res)`, `loss_depth_multi_bin` returns
`loss_depth = delta_loss/2 + bin_loss/2`, where the target bin id is
`⌊d / depth_bin_res⌋` (= truncation toward zero on this domain), the target
residual is `d − bin·res − res/2`, `bin_loss` is the soft (one-hot-target)
cross-entropy of the matched bin scores, and `delta_loss` is the MSE of the
matched deltas against the residuals. The original claim fails for exactly one
matched pair (the `squeeze` makes the indexed write raise) and for negative
depths (the code truncates toward zero, not floor). -/
theorem C4_amended_depth_loss (c : SetCriterion) (o : Outputs) (ts : List Target)
    (ind : Indices) (nb : ℚ) (P D : T3) (tdep : List (List ℚ))
    (hPb : o.pred_depth_bin = some P) (hPd : o.pred_depth_delta = some D)
    (hdep : optList Target.depth ts = some tdep)
    (hM : 2 ≤ (gather2 P (get_src_permutation_idx ind).1
      (get_src_permutation_idx ind).2 ([] : List ℚ)).length)
    (hn : 2 ≤ ((gather2 P (get_src_permutation_idx ind).1
      (get_src_permutation_idx ind).2 ([] : List ℚ)).getD 0 []).length)
    (hres : 0 < c.depth_bin_res)
    (hlen : (cat_gather tdep ind (0 : ℚ)).length =
      (gather2 P (get_src_permutation_idx ind).1
        (get_src_permutation_idx ind).2 ([] : List ℚ)).length)
    (hrange : ∀ d ∈ cat_gather tdep ind (0 : ℚ), 0 ≤ d ∧
      d < (((gather2 P (get_src_permutation_idx ind).1
        (get_src_permutation_idx ind).2 ([] : List ℚ)).getD 0 []).length : ℚ) *
          c.depth_bin_res) :
    c.loss_depth_multi_bin o ts ind nb = some [("loss_depth",
      ((mseQ ((gather2 D (get_src_permutation_idx ind).1
            (get_src_permutation_idx ind).2 ([] : List ℚ)).map (fun r => r.getD 0 0))
          ((cat_gather tdep ind (0 : ℚ)).map
            (spec_depth_target_delta c.depth_bin_res)) : ℚ) : ℝ) / 2 +
        softCEmean (gather2 P (get_src_permutation_idx ind).1
            (get_src_permutation_idx ind).2 ([] : List ℚ))
          ((cat_gather tdep ind (0 : ℚ)).map
            (spec_depth_onehot ((gather2 P (get_src_permutation_idx ind).1
              (get_src_permutation_idx ind).2 ([] : List ℚ)).getD 0 []).length
              c.depth_bin_res)) / 2)] := by
  set gb := gather2 P (get_src_permutation_idx ind).1
    (get_src_permutation_idx ind).2 ([] : List ℚ) with hgb
  set td := cat_gather tdep ind (0 : ℚ) with htd
  set n := (gb.getD 0 []).length with hnn
  have htrunc : ∀ d ∈ td, truncQ (d / c.depth_bin_res) = ⌊d / c.depth_bin_res⌋ := by
    intro d hd
    exact if_pos (div_nonneg (hrange d hd).1 (le_of_lt hres))
  have hbound : ∀ d ∈ td, -(n : ℤ) ≤ truncQ (d / c.depth_bin_res) ∧
      truncQ (d / c.depth_bin_res) < (n : ℤ) := by
    intro d hd
    rw [htrunc d hd]
    have h0 : (0 : ℤ) ≤ ⌊d / c.depth_bin_res⌋ :=
      Int.floor_nonneg.mpr (div_nonneg (hrange d hd).1 (le_of_lt hres))
    refine ⟨by omega, ?_⟩
    rw [Int.floor_lt]
    push_cast
    exact (div_lt_iff₀ hres).mpr (hrange d hd).2
  simp only [SetCriterion.loss_depth_multi_bin, hPb, hPd, hdep, Option.bind_eq_bind,
    Option.some_bind, Option.pure_def, ← hgb, ← htd, ← hnn]
  rw [if_neg (by omega : ¬((gb.length = 1) ∨ (n = 1)))]
  rw [if_pos ?hguard]
  case hguard =>
    constructor
    · rw [List.length_map]
      exact hlen
    · rw [List.all_eq_true]
      intro k hk
      rcases List.mem_map.mp hk with ⟨d, hd, rfl⟩
      simpa using hbound d hd
  have hdelta : td.map (fun dq => dq - (truncQ (dq / c.depth_bin_res) : ℚ) *
      c.depth_bin_res - c.depth_bin_res / 2) =
      td.map (spec_depth_target_delta c.depth_bin_res) := by
    apply List.map_congr_left
    intro d hd
    rw [spec_depth_target_delta, htrunc d hd]
  have honehot : (td.map (fun dq => truncQ (dq / c.depth_bin_res))).map
      (fun k => (List.range n).map (fun j => if (j : ℤ) = Int.emod k (n : ℤ) then (1 : ℚ) else 0)) =
      td.map (spec_depth_onehot n c.depth_bin_res) := by
    rw [List.map_map]
    apply List.map_congr_left
    intro d hd
    show (List.range n).map
      (fun j => if (j : ℤ) = Int.emod (truncQ (d / c.depth_bin_res)) (n : ℤ) then (1 : ℚ) else 0) = _
    obtain ⟨hlb, hub⟩ := hbound d hd
    have h0 : 0 ≤ truncQ (d / c.depth_bin_res) := by
      rw [htrunc d hd]
      exact Int.floor_nonneg.mpr (div_nonneg (hrange d hd).1 (le_of_lt hres))
    have hemod : Int.emod (truncQ (d / c.depth_bin_res)) ((n : ℤ)) =
        truncQ (d / c.depth_bin_res) := Int.emod_eq_of_lt h0 hub
    rw [hemod, spec_depth_onehot, htrunc d hd]
  rw [hdelta, honehot]

theorem C4_counterexample :
    (exCd.loss_depth_multi_bin oD1 [tD1] [([0], [0])] 1 = none) ∧
    (exCd.loss_depth_multi_bin oD2 [tD2] exInd2 1 ≠
      some [("loss_depth",
        ((mseQ [0, 0] (([-1/2, -1/2] : List ℚ).map (spec_depth_target_delta 1)) : ℚ) : ℝ) / 2 +
          softCEmean [[0, 0], [0, 0]]
            (([-1/2, -1/2] : List ℚ).map (spec_depth_onehot 2 1)) / 2)]) := by
  have hceil : (⌈(-1/2 : ℚ)⌉ : ℤ) = 0 := by
    rw [Int.ceil_eq_iff] ; norm_num
  have hfl : (⌊(-1/2 : ℚ)⌋ : ℤ) = -1 := by
    rw [Int.floor_eq_iff] ; norm_num
  have htr : truncQ ((-1/2 : ℚ) / 1) = 0 := by
    rw [truncQ, if_neg (by norm_num), div_one]
    exact hceil
  constructor
  · rfl
  · have hspec1 : spec_depth_target_delta 1 (-1/2 : ℚ) = 0 := by
      rw [spec_depth_target_delta, div_one, hfl]
      norm_num
    have hspec2 : spec_depth_onehot 2 1 (-1/2 : ℚ) = [0, 0] := by
      rw [spec_depth_onehot, div_one, hfl, show List.range 2 = [0, 1] from rfl]
      norm_num
    have hlhs : exCd.loss_depth_multi_bin oD2 [tD2] exInd2 1 =
        some [("loss_depth",
          ((mseQ [0, 0] [-1, -1] : ℚ) : ℝ) / 2 +
            softCEmean [[0, 0], [0, 0]] [[1, 0], [1, 0]] / 2)] := by
      simp only [SetCriterion.loss_depth_multi_bin,
        show oD2.pred_depth_bin = some [[[0, 0], [0, 0]]] from rfl,
        show oD2.pred_depth_delta = some [[[0], [0]]] from rfl,
        show optList Target.depth [tD2] = some [[-1/2, -1/2]] from rfl,
        Option.bind_eq_bind, Option.some_bind, Option.pure_def,
        show gather2 [[[0, 0], [0, 0]]] (get_src_permutation_idx exInd2).1
          (get_src_permutation_idx exInd2).2 ([] : List ℚ) = [[0, 0], [0, 0]] from rfl,
        show gather2 [[[0], [0]]] (get_src_permutation_idx exInd2).1
          (get_src_permutation_idx exInd2).2 ([] : List ℚ) = [[0], [0]] from rfl,
        show cat_gather [[-1/2, -1/2]] exInd2 (0 : ℚ) = [-1/2, -1/2] from rfl,
        show exCd.depth_bin_res = 1 from rfl,
        show (([[0, 0], [0, 0]] : Mat).getD 0 []).length = 2 from rfl,
        show (([0] : List ℚ).getD 0 0) = 0 from rfl,
        List.map_cons, List.map_nil, htr, List.length_cons, List.length_nil]
      rw [if_neg (by norm_num)]
      rw [if_pos (by refine ⟨trivial, ?_⟩; decide)]
      have harith : (-1/2 : ℚ) - ((0 : ℤ) : ℚ) * 1 - 1 / 2 = -1 := by norm_num
      rw [harith]
      norm_num [show Int.emod 0 ((2 : ℕ) : ℤ) = 0 from rfl,
        show List.range 2 = [0, 1] from rfl]
    rw [hlhs]
    simp only [List.map_cons, List.map_nil, hspec1, hspec2]
    intro heq
    have hval : ((mseQ [0, 0] [-1, -1] : ℚ) : ℝ) / 2 +
        softCEmean [[0, 0], [0, 0]] [[1, 0], [1, 0]] / 2 =
        ((mseQ [0, 0] [0, 0] : ℚ) : ℝ) / 2 +
          softCEmean [[0, 0], [0, 0]] [[0, 0], [0, 0]] / 2 := by
      have := List.cons.inj (Option.some.inj heq)
      exact (Prod.mk.injEq _ _ _ _).mp this.1 |>.2
    have h1 : (mseQ [0, 0] [-1, -1] : ℚ) = 1 := by norm_num [mseQ]
    have h0 : (mseQ [0, 0] [0, 0] : ℚ) = 0 := by norm_num [mseQ]
    have h2 : softCEmean [[0, 0], [0, 0]] [[1, 0], [1, 0]] = Real.log 2 := by
      norm_num [softCEmean, softCErow, logSumExp, Real.exp_zero]
    have h3 : softCEmean [[0, 0], [0, 0]] [[0, 0], [0, 0]] = 0 := by
      norm_num [softCEmean, softCErow, logSumExp, Real.exp_zero]
    rw [h1, h0, h2, h3] at hval
    have hlog : (0 : ℝ) ≤ Real.log 2 := Real.log_nonneg (by norm_num)
    norm_num at hval
    linarith

theorem C4_witness :
    exOut.pred_depth_bin = some [[[1, 0, 0, 0], [0, 1, 0, 0]]] ∧
    exOut.pred_depth_delta = some [[[0], [0]]] ∧
    optList Target.depth [exTgt2] = some [[3, 5]] ∧
    2 ≤ (gather2 [[[1, 0, 0, 0], [0, 1, 0, 0]]] (get_src_permutation_idx exInd2).1
      (get_src_permutation_idx exInd2).2 ([] : List ℚ)).length ∧
    2 ≤ ((gather2 [[[1, 0, 0, 0], [0, 1, 0, 0]]] (get_src_permutation_idx exInd2).1
      (get_src_permutation_idx exInd2).2 ([] : List ℚ)).getD 0 []).length ∧
    0 < exC.depth_bin_res ∧
    (cat_gather [[3, 5]] exInd2 (0 : ℚ)).length =
      (gather2 [[[1, 0, 0, 0], [0, 1, 0, 0]]] (get_src_permutation_idx exInd2).1
        (get_src_permutation_idx exInd2).2 ([] : List ℚ)).length ∧
    (∀ d ∈ cat_gather [[3, 5]] exInd2 (0 : ℚ), 0 ≤ d ∧
      d < (((gather2 [[[1, 0, 0, 0], [0, 1, 0, 0]]] (get_src_permutation_idx exInd2).1
        (get_src_permutation_idx exInd2).2 ([] : List ℚ)).getD 0 []).length : ℚ) *
          exC.depth_bin_res) ∧
    exC.loss_depth_multi_bin exOut [exTgt2] exInd2 1 = some [("loss_depth",
      ((mseQ ((gather2 [[[0], [0]]] (get_src_permutation_idx exInd2).1
            (get_src_permutation_idx exInd2).2 ([] : List ℚ)).map (fun r => r.getD 0 0))
          ((cat_gather [[3, 5]] exInd2 (0 : ℚ)).map
            (spec_depth_target_delta exC.depth_bin_res)) : ℚ) : ℝ) / 2 +
        softCEmean (gather2 [[[1, 0, 0, 0], [0, 1, 0, 0]]] (get_src_permutation_idx exInd2).1
            (get_src_permutation_idx exInd2).2 ([] : List ℚ))
          ((cat_gather [[3, 5]] exInd2 (0 : ℚ)).map
            (spec_depth_onehot ((gather2 [[[1, 0, 0, 0], [0, 1, 0, 0]]]
              (get_src_permutation_idx exInd2).1
              (get_src_permutation_idx exInd2).2 ([] : List ℚ)).getD 0 []).length
              exC.depth_bin_res)) / 2)] :=
  have hrange : ∀ d ∈ cat_gather [[3, 5]] exInd2 (0 : ℚ), 0 ≤ d ∧
      d < (((gather2 [[[1, 0, 0, 0], [0, 1, 0, 0]]] (get_src_permutation_idx exInd2).1
        (get_src_permutation_idx exInd2).2 ([] : List ℚ)).getD 0 []).length : ℚ) *
          exC.depth_bin_res := by
    intro d hd
    rw [show cat_gather [[3, 5]] exInd2 (0 : ℚ) = [3, 5] from rfl] at hd
    rw [show ((gather2 [[[1, 0, 0, 0], [0, 1, 0, 0]]] (get_src_permutation_idx exInd2).1
      (get_src_permutation_idx exInd2).2 ([] : List ℚ)).getD 0 []).length = 4 from rfl,
      show exC.depth_bin_res = 2 from rfl]
    simp only [List.mem_cons, List.not_mem_nil, or_false] at hd
    rcases hd with rfl | rfl <;> norm_num
  ⟨rfl, rfl, rfl, by decide, by decide, by norm_num [exC], by decide, hrange,
    C4_amended_depth_loss exC exOut [exTgt2] exInd2 1 [[[1, 0, 0, 0], [0, 1, 0, 0]]]
      [[[0], [0]]] [[3, 5]] rfl rfl rfl (by decide) (by decide) (by norm_num [exC])
      (by decide) hrange⟩

/-- C10 (amended): with at least two matched pairs and at least two depth bins,
`loss_depth_multi_bin` is total precisely when every matched depth `d` has
`int(d / depth_bin_res)` (truncation toward zero) in `[-n, n)` — negative
indices in `[-n, 0)` wrap, torch semantics — which for positive resolution is
equivalent to `-(n+1)·res < d < n·res`, not to `0 ≤ d < n·res` as claimed. -/
theorem C10_amended_in_bounds (c : SetCriterion) (o : Outputs) (ts : List Target)
    (ind : Indices) (nb : ℚ) (P D : T3) (tdep : List (List ℚ))
    (hPb : o.pred_depth_bin = some P) (hPd : o.pred_depth_delta = some D)
    (hdep : optList Target.depth ts = some tdep)
    (hM : 2 ≤ (gather2 P (get_src_permutation_idx ind).1
      (get_src_permutation_idx ind).2 ([] : List ℚ)).length)
    (hn : 2 ≤ ((gather2 P (get_src_permutation_idx ind).1
      (get_src_permutation_idx ind).2 ([] : List ℚ)).getD 0 []).length)
    (hlen : (cat_gather tdep ind (0 : ℚ)).length =
      (gather2 P (get_src_permutation_idx ind).1
        (get_src_permutation_idx ind).2 ([] : List ℚ)).length) :
    ((c.loss_depth_multi_bin o ts ind nb).isSome = true ↔
      ∀ d ∈ cat_gather tdep ind (0 : ℚ),
        -((((gather2 P (get_src_permutation_idx ind).1
            (get_src_permutation_idx ind).2 ([] : List ℚ)).getD 0 []).length : ℤ)) ≤
          truncQ (d / c.depth_bin_res) ∧
        truncQ (d / c.depth_bin_res) <
          (((gather2 P (get_src_permutation_idx ind).1
            (get_src_permutation_idx ind).2 ([] : List ℚ)).getD 0 []).length : ℤ)) ∧
    (0 < c.depth_bin_res → ∀ d : ℚ,
      ((-((((gather2 P (get_src_permutation_idx ind).1
            (get_src_permutation_idx ind).2 ([] : List ℚ)).getD 0 []).length : ℤ)) ≤
          truncQ (d / c.depth_bin_res) ∧
        truncQ (d / c.depth_bin_res) <
          (((gather2 P (get_src_permutation_idx ind).1
            (get_src_permutation_idx ind).2 ([] : List ℚ)).getD 0 []).length : ℤ)) ↔
        (-(((((gather2 P (get_src_permutation_idx ind).1
            (get_src_permutation_idx ind).2 ([] : List ℚ)).getD 0 []).length : ℚ) + 1) *
              c.depth_bin_res) < d ∧
          d < ((((gather2 P (get_src_permutation_idx ind).1
            (get_src_permutation_idx ind).2 ([] : List ℚ)).getD 0 []).length : ℚ) *
              c.depth_bin_res)))) := by
  set gb := gather2 P (get_src_permutation_idx ind).1
    (get_src_permutation_idx ind).2 ([] : List ℚ) with hgb
  set td := cat_gather tdep ind (0 : ℚ) with htd
  set n := (gb.getD 0 []).length with hnn
  constructor
  · simp only [SetCriterion.loss_depth_multi_bin, hPb, hPd, hdep, Option.bind_eq_bind,
      Option.some_bind, Option.pure_def, ← hgb, ← htd, ← hnn]
    rw [if_neg (by omega : ¬((gb.length = 1) ∨ (n = 1)))]
    by_cases hg : (td.map (fun dq => truncQ (dq / c.depth_bin_res))).length = gb.length ∧
        (td.map (fun dq => truncQ (dq / c.depth_bin_res))).all
          (fun k => decide (-(n : ℤ) ≤ k ∧ k < (n : ℤ)))
    · rw [if_pos hg]
      simp only [Option.isSome_some, true_iff]
      intro d hd
      have := (List.all_eq_true.mp hg.2) _ (List.mem_map_of_mem _ hd)
      simpa using this
    · rw [if_neg hg]
      simp only [Option.isSome_none, Bool.false_eq_true, false_iff]
      intro hall
      apply hg
      refine ⟨by rw [List.length_map]; exact hlen, ?_⟩
      rw [List.all_eq_true]
      intro k hk
      rcases List.mem_map.mp hk with ⟨d, hd, rfl⟩
      simpa using hall d hd
  · intro hres d
    by_cases hq : 0 ≤ d / c.depth_bin_res
    · have htr : truncQ (d / c.depth_bin_res) = ⌊d / c.depth_bin_res⌋ := if_pos hq
      have hd0 : 0 ≤ d := by
        by_contra hneg
        push_neg at hneg
        have : d / c.depth_bin_res < 0 := div_neg_of_neg_of_pos hneg hres
        linarith
      rw [htr]
      constructor
      · rintro ⟨_, hub⟩
        refine ⟨by nlinarith, ?_⟩
        rw [Int.floor_lt] at hub
        push_cast at hub
        exact (div_lt_iff₀ hres).mp hub
      · rintro ⟨_, hub⟩
        have h0 : (0 : ℤ) ≤ ⌊d / c.depth_bin_res⌋ := Int.floor_nonneg.mpr hq
        refine ⟨by omega, ?_⟩
        rw [Int.floor_lt]
        push_cast
        exact (div_lt_iff₀ hres).mpr hub
    · push_neg at hq
      have htr : truncQ (d / c.depth_bin_res) = ⌈d / c.depth_bin_res⌉ := if_neg (by linarith)
      have hd0 : d < 0 := by
        by_contra hpos
        push_neg at hpos
        exact absurd (div_nonneg hpos (le_of_lt hres)) (by linarith)
      rw [htr]
      have hceil0 : ⌈d / c.depth_bin_res⌉ ≤ 0 := Int.ceil_le.mpr (by exact_mod_cast le_of_lt hq)
      constructor
      · rintro ⟨hlb, _⟩
        have h1 : (-(n : ℤ) - 1) < ⌈d / c.depth_bin_res⌉ := by omega
        rw [Int.lt_ceil] at h1
        push_cast at h1
        constructor
        · have := (lt_div_iff₀ hres).mp h1
          nlinarith
        · nlinarith
      · rintro ⟨hlb, _⟩
        refine ⟨?_, by omega⟩
        have h1 : (-(n : ℚ) - 1) < d / c.depth_bin_res := by
          rw [lt_div_iff₀ hres]
          nlinarith
        have h2 : (-(n : ℤ) - 1) < ⌈d / c.depth_bin_res⌉ := by
          rw [Int.lt_ceil]
          push_cast
          exact h1
        omega

theorem C10_counterexample :
    (exCd.loss_depth_multi_bin oD2 [tD3] exInd2 1).isSome = true ∧
    truncQ ((-3/2 : ℚ) / 1) < 0 := by
  have hceil : (⌈(-3/2 : ℚ)⌉ : ℤ) = -1 := by
    rw [Int.ceil_eq_iff] ; norm_num
  have htr : truncQ ((-3/2 : ℚ) / 1) = -1 := by
    rw [truncQ, if_neg (by norm_num), div_one]
    exact hceil
  constructor
  · simp only [SetCriterion.loss_depth_multi_bin,
      show oD2.pred_depth_bin = some [[[0, 0], [0, 0]]] from rfl,
      show oD2.pred_depth_delta = some [[[0], [0]]] from rfl,
      show optList Target.depth [tD3] = some [[-3/2, -3/2]] from rfl,
      Option.bind_eq_bind, Option.some_bind, Option.pure_def,
      show gather2 [[[0, 0], [0, 0]]] (get_src_permutation_idx exInd2).1
        (get_src_permutation_idx exInd2).2 ([] : List ℚ) = [[0, 0], [0, 0]] from rfl,
      show gather2 [[[0], [0]]] (get_src_permutation_idx exInd2).1
        (get_src_permutation_idx exInd2).2 ([] : List ℚ) = [[0], [0]] from rfl,
      show cat_gather [[-3/2, -3/2]] exInd2 (0 : ℚ) = [-3/2, -3/2] from rfl,
      show exCd.depth_bin_res = 1 from rfl,
      show (([[0, 0], [0, 0]] : Mat).getD 0 []).length = 2 from rfl,
      List.map_cons, List.map_nil, htr, List.length_cons, List.length_nil]
    rw [if_neg (by norm_num)]
    rw [if_pos (by refine ⟨trivial, ?_⟩; decide)]
    rfl
  · rw [htr]
    decide

theorem C10_witness :
    exOut.pred_depth_bin = some [[[1, 0, 0, 0], [0, 1, 0, 0]]] ∧
    exOut.pred_depth_delta = some [[[0], [0]]] ∧
    optList Target.depth [exTgt2] = some [[3, 5]] ∧
    2 ≤ (gather2 [[[1, 0, 0, 0], [0, 1, 0, 0]]] (get_src_permutation_idx exInd2).1
      (get_src_permutation_idx exInd2).2 ([] : List ℚ)).length ∧
    2 ≤ ((gather2 [[[1, 0, 0, 0], [0, 1, 0, 0]]] (get_src_permutation_idx exInd2).1
      (get_src_permutation_idx exInd2).2 ([] : List ℚ)).getD 0 []).length ∧
    (cat_gather [[3, 5]] exInd2 (0 : ℚ)).length =
      (gather2 [[[1, 0, 0, 0], [0, 1, 0, 0]]] (get_src_permutation_idx exInd2).1
        (get_src_permutation_idx exInd2).2 ([] : List ℚ)).length ∧
    (((exC.loss_depth_multi_bin exOut [exTgt2] exInd2 1).isSome = true ↔
      ∀ d ∈ cat_gather [[3, 5]] exInd2 (0 : ℚ),
        -((((gather2 [[[1, 0, 0, 0], [0, 1, 0, 0]]] (get_src_permutation_idx exInd2).1
            (get_src_permutation_idx exInd2).2 ([] : List ℚ)).getD 0 []).length : ℤ)) ≤
          truncQ (d / exC.depth_bin_res) ∧
        truncQ (d / exC.depth_bin_res) <
          (((gather2 [[[1, 0, 0, 0], [0, 1, 0, 0]]] (get_src_permutation_idx exInd2).1
            (get_src_permutation_idx exInd2).2 ([] : List ℚ)).getD 0 []).length : ℤ)) ∧
    (0 < exC.depth_bin_res → ∀ d : ℚ,
      ((-((((gather2 [[[1, 0, 0, 0], [0, 1, 0, 0]]] (get_src_permutation_idx exInd2).1
            (get_src_permutation_idx exInd2).2 ([] : List ℚ)).getD 0 []).length : ℤ)) ≤
          truncQ (d / exC.depth_bin_res) ∧
        truncQ (d / exC.depth_bin_res) <
          (((gather2 [[[1, 0, 0, 0], [0, 1, 0, 0]]] (get_src_permutation_idx exInd2).1
            (get_src_permutation_idx exInd2).2 ([] : List ℚ)).getD 0 []).length : ℤ)) ↔
        (-(((((gather2 [[[1, 0, 0, 0], [0, 1, 0, 0]]] (get_src_permutation_idx exInd2).1
            (get_src_permutation_idx exInd2).2 ([] : List ℚ)).getD 0 []).length : ℚ) + 1) *
              exC.depth_bin_res) < d ∧
          d < ((((gather2 [[[1, 0, 0, 0], [0, 1, 0, 0]]] (get_src_permutation_idx exInd2).1
            (get_src_permutation_idx exInd2).2 ([] : List ℚ)).getD 0 []).length : ℚ) *
              exC.depth_bin_res))))) :=
  ⟨rfl, rfl, rfl, by decide, by decide, by decide,
    C10_amended_in_bounds exC exOut [exTgt2] exInd2 1 [[[1, 0, 0, 0], [0, 1, 0, 0]]]
      [[[0], [0]]] [[3, 5]] rfl rfl rfl (by decide) (by decide) (by decide)⟩

theorem getD_eq_getElem' {α : Type} (l : List α) (i : ℕ) (d : α) (h : i < l.length) :
    l.getD i d = l[i] := by
  rw [List.getD_eq_getElem?_getD, List.getElem?_eq_getElem h]
  rfl

theorem argmaxIdx_lt_length {α : Type} [LinearOrder α] :
    ∀ (l : List α), l ≠ [] → argmaxIdx l < l.length := by
  intro l
  induction l with
  | nil => intro h; exact absurd rfl h
  | cons a t ih =>
    intro _
    cases t with
    | nil => simp [argmaxIdx]
    | cons b r =>
      rw [argmaxIdx]
      split
      · have := ih (by simp)
        simpa using this
      · simp

theorem argmaxIdx_is_max {α : Type} [LinearOrder α] (d : α) :
    ∀ (l : List α) (x : α), x ∈ l → x ≤ l.getD (argmaxIdx l) d := by
  intro l
  induction l with
  | nil => intro x hx; cases hx
  | cons a t ih =>
    intro x hx
    cases t with
    | nil =>
      rcases List.mem_cons.mp hx with rfl | hx'
      · simp [argmaxIdx]
      · cases hx'
    | cons b r =>
      have hlt : argmaxIdx (b :: r) < (b :: r).length := argmaxIdx_lt_length _ (by simp)
      have hindep : ∀ d₁ d₂ : α, (b :: r).getD (argmaxIdx (b :: r)) d₁ =
          (b :: r).getD (argmaxIdx (b :: r)) d₂ := by
        intro d₁ d₂
        rw [getD_eq_getElem' _ _ _ hlt, getD_eq_getElem' _ _ _ hlt]
      rw [argmaxIdx]
      split
      · rename_i hcond
        rcases List.mem_cons.mp hx with rfl | hx'
        · have := le_of_lt hcond
          rw [hindep x d] at this
          simpa [List.getD_cons_succ] using this
        · have := ih x hx'
          simpa [List.getD_cons_succ] using this
      · rename_i hcond
        push_neg at hcond
        rcases List.mem_cons.mp hx with rfl | hx'
        · simp [List.getD_cons_zero]
        · have h1 := ih x hx'
          have h2 : (b :: r).getD (argmaxIdx (b :: r)) d ≤ a := by
            rw [hindep d a]
            exact hcond
          simpa [List.getD_cons_zero] using le_trans h1 h2

theorem listMaxD_mem (l : List ℝ) (h : l ≠ []) : listMaxD l ∈ l := by
  cases hm : l.maximum with
  | bot => exact absurd (List.maximum_eq_bot.mp hm) h
  | coe m =>
    have := List.maximum_mem hm
    simpa [listMaxD, hm] using this

theorem le_listMaxD (l : List ℝ) (x : ℝ) (hx : x ∈ l) : x ≤ listMaxD l := by
  cases hm : l.maximum with
  | bot =>
    exact absurd (List.maximum_eq_bot.mp hm ▸ hx) (List.not_mem_nil x)
  | coe m =>
    have := List.le_maximum_of_mem hx hm
    simpa [listMaxD, hm] using this

theorem listMaxD_eq_argmax (l : List ℝ) (h : l ≠ []) :
    listMaxD l = l.getD (argmaxIdx l) 0 := by
  apply le_antisymm
  · exact argmaxIdx_is_max 0 l _ (listMaxD_mem l h)
  · apply le_listMaxD
    rw [getD_eq_getElem' _ _ _ (argmaxIdx_lt_length l h)]
    exact List.getElem_mem _

theorem softmaxR_length (l : List ℚ) : (softmaxR l).length = l.length := by
  rw [softmaxR, List.length_map]

/-- C8: for matching batch lengths (and two-entry size rows), `PostProcess.forward`
returns exactly one record per image with one entry per query — no thresholding
or suppression: per query, the score is an upper bound of the softmax
probabilities of all non-last (non-"no-object") classes and is attained at the
returned label, the label indexes a non-last class, and the box is the
(center_x, center_y, w, h) → (x0, y0, x1, y1) conversion scaled elementwise by
(width, height, width, height) of that image (size rows are `[height, width]`). -/
theorem C8_postprocess_per_query (o : Outputs) (sizes : List (List ℚ)) (L Bx : T3)
    (hP : o.pred_logits = some L) (hBx : o.pred_boxes = some Bx)
    (hlen : L.length = sizes.length)
    (hsz : ∀ s ∈ sizes, s.length = 2)
    (hBlen : Bx.length = L.length)
    (hrows : ∀ i, i < L.length → (Bx.getD i []).length = (L.getD i []).length)
    (hC : ∀ img ∈ L, ∀ r ∈ img, 2 ≤ r.length) :
    ∃ res, PostProcess.forward o sizes = some res ∧ res.length = L.length ∧
      ∀ i, i < L.length →
        (res.getD i ⟨[], [], []⟩).scores.length = (L.getD i []).length ∧
        (res.getD i ⟨[], [], []⟩).labels.length = (L.getD i []).length ∧
        (res.getD i ⟨[], [], []⟩).boxes.length = (L.getD i []).length ∧
        ∀ q, q < (L.getD i []).length →
          (∀ cl, cl < ((L.getD i []).getD q []).length - 1 →
            (softmaxR ((L.getD i []).getD q [])).getD cl 0 ≤
              (res.getD i ⟨[], [], []⟩).scores.getD q 0) ∧
          (res.getD i ⟨[], [], []⟩).labels.getD q 0 <
            ((L.getD i []).getD q []).length - 1 ∧
          (res.getD i ⟨[], [], []⟩).scores.getD q 0 =
            (softmaxR ((L.getD i []).getD q [])).getD
              ((res.getD i ⟨[], [], []⟩).labels.getD q 0) 0 ∧
          (res.getD i ⟨[], [], []⟩).boxes.getD q [] =
            [(((Bx.getD i []).getD q []).getD 0 0 - ((Bx.getD i []).getD q []).getD 2 0 / 2) *
                (sizes.getD i []).getD 1 0,
             (((Bx.getD i []).getD q []).getD 1 0 - ((Bx.getD i []).getD q []).getD 3 0 / 2) *
                (sizes.getD i []).getD 0 0,
             (((Bx.getD i []).getD q []).getD 0 0 + ((Bx.getD i []).getD q []).getD 2 0 / 2) *
                (sizes.getD i []).getD 1 0,
             (((Bx.getD i []).getD q []).getD 1 0 + ((Bx.getD i []).getD q []).getD 3 0 / 2) *
                (sizes.getD i []).getD 0 0] := by
  have hall : sizes.all (fun s => decide (s.length = 2)) = true := by
    rw [List.all_eq_true]
    intro s hs
    simpa using hsz s hs
  refine ⟨(List.zipWith (fun (p : List ℝ × List ℕ) b => Detection.mk p.1 p.2 b)
      (((L.map (fun img => img.map softmaxR)).map
        (fun img => img.map (fun r => listMaxD r.dropLast))).zip
      ((L.map (fun img => img.map softmaxR)).map
        (fun img => img.map (fun r => argmaxIdx r.dropLast))))
      (List.zipWith
        (fun (img : Mat) (s : List ℚ) => img.map (fun b =>
          List.zipWith (fun x y => x * y) b [s.getD 1 0, s.getD 0 0, s.getD 1 0, s.getD 0 0]))
        (Bx.map (fun img => img.map box_cxcywh_to_xyxy)) sizes)), ?_, ?_, ?_⟩
  · simp only [PostProcess.forward, hP, hBx, Option.bind_eq_bind, Option.some_bind,
      Option.pure_def]
    rw [if_pos ⟨hlen, hall⟩]
  · simp [List.length_zipWith, List.length_zip, List.length_map, ← hlen, hBlen]
  · intro i hi
    have hizip : i < (((L.map (fun img => img.map softmaxR)).map
        (fun img => img.map (fun r => listMaxD r.dropLast))).zip
        ((L.map (fun img => img.map softmaxR)).map
        (fun img => img.map (fun r => argmaxIdx r.dropLast)))).length := by
      simp [List.length_zip, List.length_map]
      omega
    have hiscaled : i < (List.zipWith
        (fun (img : Mat) (s : List ℚ) => img.map (fun b =>
          List.zipWith (fun x y => x * y) b [s.getD 1 0, s.getD 0 0, s.getD 1 0, s.getD 0 0]))
        (Bx.map (fun img => img.map box_cxcywh_to_xyxy)) sizes).length := by
      simp [List.length_zipWith, List.length_map]
      omega
    have hreslen : i < (List.zipWith (fun (p : List ℝ × List ℕ) b => Detection.mk p.1 p.2 b)
        (((L.map (fun img => img.map softmaxR)).map
          (fun img => img.map (fun r => listMaxD r.dropLast))).zip
        ((L.map (fun img => img.map softmaxR)).map
          (fun img => img.map (fun r => argmaxIdx r.dropLast))))
        (List.zipWith
          (fun (img : Mat) (s : List ℚ) => img.map (fun b =>
            List.zipWith (fun x y => x * y) b [s.getD 1 0, s.getD 0 0, s.getD 1 0, s.getD 0 0]))
          (Bx.map (fun img => img.map box_cxcywh_to_xyxy)) sizes)).length := by
      simp [List.length_zipWith, List.length_zip, List.length_map]
      omega
    have hdet : (List.zipWith (fun (p : List ℝ × List ℕ) b => Detection.mk p.1 p.2 b)
        (((L.map (fun img => img.map softmaxR)).map
          (fun img => img.map (fun r => listMaxD r.dropLast))).zip
        ((L.map (fun img => img.map softmaxR)).map
          (fun img => img.map (fun r => argmaxIdx r.dropLast))))
        (List.zipWith
          (fun (img : Mat) (s : List ℚ) => img.map (fun b =>
            List.zipWith (fun x y => x * y) b [s.getD 1 0, s.getD 0 0, s.getD 1 0, s.getD 0 0]))
          (Bx.map (fun img => img.map box_cxcywh_to_xyxy)) sizes)).getD i ⟨[], [], []⟩ =
        Detection.mk
          ((L.getD i []).map (fun r => listMaxD (softmaxR r).dropLast))
          ((L.getD i []).map (fun r => argmaxIdx (softmaxR r).dropLast))
          (((Bx.getD i []).map box_cxcywh_to_xyxy).map (fun b =>
            List.zipWith (fun x y => x * y) b
              [(sizes.getD i []).getD 1 0, (sizes.getD i []).getD 0 0,
               (sizes.getD i []).getD 1 0, (sizes.getD i []).getD 0 0])) := by
      rw [getD_eq_getElem' _ _ _ hreslen, List.getElem_zipWith, List.getElem_zip,
        List.getElem_map, List.getElem_map, List.getElem_map, List.getElem_map,
        List.getElem_zipWith, List.getElem_map]
      simp only [List.map_map]
      rw [← getD_eq_getElem' L i [] hi, ← getD_eq_getElem' Bx i [] (by omega),
        ← getD_eq_getElem' sizes i [] (by omega)]
      rfl
    rw [hdet]
    refine ⟨by simp, by simp, ?_, ?_⟩
    · have := hrows i hi
      simp only [List.length_map]
      simpa [List.getD_eq_getElem?_getD] using this
    intro q hq
    have hrow : ((L.getD i []).map (fun r => listMaxD (softmaxR r).dropLast)).getD q 0 =
        listMaxD (softmaxR ((L.getD i []).getD q [])).dropLast := by
      rw [getD_eq_getElem' _ _ _ (by simpa using hq), List.getElem_map,
        ← getD_eq_getElem' (L.getD i []) q [] hq]
    have hlabq : ((L.getD i []).map (fun r => argmaxIdx (softmaxR r).dropLast)).getD q 0 =
        argmaxIdx (softmaxR ((L.getD i []).getD q [])).dropLast := by
      rw [getD_eq_getElem' _ _ _ (by simpa using hq), List.getElem_map,
        ← getD_eq_getElem' (L.getD i []) q [] hq]
    have hCrow : 2 ≤ ((L.getD i []).getD q []).length := by
      refine hC (L.getD i []) ?_ ((L.getD i []).getD q []) ?_
      · rw [getD_eq_getElem' _ _ _ hi]
        exact List.getElem_mem hi
      · rw [getD_eq_getElem' _ _ _ hq]
        exact List.getElem_mem hq
    have hdropne : (softmaxR ((L.getD i []).getD q [])).dropLast ≠ [] := by
      intro hcon
      have hl := congrArg List.length hcon
      rw [List.length_dropLast, softmaxR_length, List.length_nil] at hl
      omega
    have hdriplen : (softmaxR ((L.getD i []).getD q [])).dropLast.length =
        ((L.getD i []).getD q []).length - 1 := by
      rw [List.length_dropLast, softmaxR_length]
    refine ⟨?_, ?_, ?_, ?_⟩
    · intro cl hcl
      rw [hrow]
      apply le_listMaxD
      have hclfull : cl < (softmaxR ((L.getD i []).getD q [])).length := by
        rw [softmaxR_length]
        omega
      have hcldrop : cl < (softmaxR ((L.getD i []).getD q [])).dropLast.length := by
        rw [hdriplen]
        exact hcl
      rw [getD_eq_getElem' _ _ _ hclfull, ← List.getElem_dropLast _ cl hcldrop]
      exact List.getElem_mem hcldrop
    · rw [hlabq, ← hdriplen]
      exact argmaxIdx_lt_length _ hdropne
    · rw [hrow, hlabq, listMaxD_eq_argmax _ hdropne]
      have hargdrop : argmaxIdx (softmaxR ((L.getD i []).getD q [])).dropLast <
          (softmaxR ((L.getD i []).getD q [])).dropLast.length :=
        argmaxIdx_lt_length _ hdropne
      have hargfull : argmaxIdx (softmaxR ((L.getD i []).getD q [])).dropLast <
          (softmaxR ((L.getD i []).getD q [])).length := by
        rw [softmaxR_length]
        rw [hdriplen] at hargdrop
        omega
      rw [getD_eq_getElem' _ _ _ hargdrop, getD_eq_getElem' _ _ _ hargfull,
        List.getElem_dropLast]
    · have hqBx : q < (Bx.getD i []).length := by
        rw [hrows i hi]
        exact hq
      have hqm : q < ((Bx.getD i []).map box_cxcywh_to_xyxy).length := by
        simpa using hqBx
      rw [getD_eq_getElem' _ _ _ (by simpa using hqBx), List.getElem_map, List.getElem_map,
        ← getD_eq_getElem' (Bx.getD i []) q [] hqBx]
      rw [box_cxcywh_to_xyxy]
      rfl

theorem C8_witness :
    exOut.pred_logits = some [[[1, 0, 0], [0, 1, 0]]] ∧
    exOut.pred_boxes = some [[[1/2, 1/2, 1, 1], [1/4, 1/4, 1/2, 1/2]]] ∧
    ([[[1, 0, 0], [0, 1, 0]]] : T3).length = ([[2, 3]] : List (List ℚ)).length ∧
    (∀ s ∈ ([[2, 3]] : List (List ℚ)), s.length = 2) ∧
    ([[[1/2, 1/2, 1, 1], [1/4, 1/4, 1/2, 1/2]]] : T3).length =
      ([[[1, 0, 0], [0, 1, 0]]] : T3).length ∧
    (∀ i, i < ([[[1, 0, 0], [0, 1, 0]]] : T3).length →
      (([[[1/2, 1/2, 1, 1], [1/4, 1/4, 1/2, 1/2]]] : T3).getD i []).length =
        (([[[1, 0, 0], [0, 1, 0]]] : T3).getD i []).length) ∧
    (∀ img ∈ ([[[1, 0, 0], [0, 1, 0]]] : T3), ∀ r ∈ img, 2 ≤ r.length) ∧
    (∃ res, PostProcess.forward exOut [[2, 3]] = some res ∧
      res.length = ([[[1, 0, 0], [0, 1, 0]]] : T3).length ∧
      ∀ i, i < ([[[1, 0, 0], [0, 1, 0]]] : T3).length →
        (res.getD i ⟨[], [], []⟩).scores.length =
          (([[[1, 0, 0], [0, 1, 0]]] : T3).getD i []).length ∧
        (res.getD i ⟨[], [], []⟩).labels.length =
          (([[[1, 0, 0], [0, 1, 0]]] : T3).getD i []).length ∧
        (res.getD i ⟨[], [], []⟩).boxes.length =
          (([[[1, 0, 0], [0, 1, 0]]] : T3).getD i []).length ∧
        ∀ q, q < (([[[1, 0, 0], [0, 1, 0]]] : T3).getD i []).length →
          (∀ cl, cl < ((([[[1, 0, 0], [0, 1, 0]]] : T3).getD i []).getD q []).length - 1 →
            (softmaxR ((([[[1, 0, 0], [0, 1, 0]]] : T3).getD i []).getD q [])).getD cl 0 ≤
              (res.getD i ⟨[], [], []⟩).scores.getD q 0) ∧
          (res.getD i ⟨[], [], []⟩).labels.getD q 0 <
            ((([[[1, 0, 0], [0, 1, 0]]] : T3).getD i []).getD q []).length - 1 ∧
          (res.getD i ⟨[], [], []⟩).scores.getD q 0 =
            (softmaxR ((([[[1, 0, 0], [0, 1, 0]]] : T3).getD i []).getD q [])).getD
              ((res.getD i ⟨[], [], []⟩).labels.getD q 0) 0 ∧
          (res.getD i ⟨[], [], []⟩).boxes.getD q [] =
            [(((([[[1/2, 1/2, 1, 1], [1/4, 1/4, 1/2, 1/2]]] : T3).getD i []).getD q []).getD 0 0 -
                ((([[[1/2, 1/2, 1, 1], [1/4, 1/4, 1/2, 1/2]]] : T3).getD i []).getD q []).getD 2 0 / 2) *
                (([[2, 3]] : List (List ℚ)).getD i []).getD 1 0,
             (((([[[1/2, 1/2, 1, 1], [1/4, 1/4, 1/2, 1/2]]] : T3).getD i []).getD q []).getD 1 0 -
                ((([[[1/2, 1/2, 1, 1], [1/4, 1/4, 1/2, 1/2]]] : T3).getD i []).getD q []).getD 3 0 / 2) *
                (([[2, 3]] : List (List ℚ)).getD i []).getD 0 0,
             (((([[[1/2, 1/2, 1, 1], [1/4, 1/4, 1/2, 1/2]]] : T3).getD i []).getD q []).getD 0 0 +
                ((([[[1/2, 1/2, 1, 1], [1/4, 1/4, 1/2, 1/2]]] : T3).getD i []).getD q []).getD 2 0 / 2) *
                (([[2, 3]] : List (List ℚ)).getD i []).getD 1 0,
             (((([[[1/2, 1/2, 1, 1], [1/4, 1/4, 1/2, 1/2]]] : T3).getD i []).getD q []).getD 1 0 +
                ((([[[1/2, 1/2, 1, 1], [1/4, 1/4, 1/2, 1/2]]] : T3).getD i []).getD q []).getD 3 0 / 2) *
                (([[2, 3]] : List (List ℚ)).getD i []).getD 0 0]) :=
  ⟨rfl, rfl, rfl, by decide, rfl, by decide, by decide,
    C8_postprocess_per_query exOut [[2, 3]] [[[1, 0, 0], [0, 1, 0]]]
      [[[1/2, 1/2, 1, 1], [1/4, 1/4, 1/2, 1/2]]] rfl rfl rfl (by decide) rfl (by decide)
      (by decide)⟩
